import Mathlib

/-!
# Validated in-memory CRUD stores

A shallow embedding of the two Express backends of the repository
(`practice 4/backend/server.js`, the product catalogue, and
`practice 5/backend/server.js`, the user list) and of the submit handler of
the React form `practice 4/frontend/src/components/ProductModal.jsx`.

A handler is a function from the store before the request (and the request
data) to the store after the request and the response that was sent.
-/

set_option autoImplicit false

/-! ## JavaScript values -/

/-- A JavaScript number: `NaN`, the two infinities, or a finite value.  Finite
values are exact rationals, a superset of the binary64 values. -/
inductive JSNum where
  | nan
  | posInf
  | negInf
  | fin (q : ℚ)
  deriving DecidableEq

namespace JSNum

/-- `Number.isFinite(x)` for a number `x`. -/
def isFinite : JSNum → Bool
  | fin _ => true
  | _ => false

/-- `Number.isInteger(x)` for a number `x`. -/
def isInteger : JSNum → Bool
  | fin q => q.isInt
  | _ => false

/-- The comparison `x < y`; it is false as soon as one side is `NaN`. -/
def lt : JSNum → JSNum → Bool
  | fin a, fin b => decide (a < b)
  | fin _, posInf => true
  | negInf, fin _ => true
  | negInf, posInf => true
  | _, _ => false

/-- The comparison `x > y`, which JavaScript evaluates as `y < x`. -/
def gt (x y : JSNum) : Bool := lt y x

/-- The number literal `n`. -/
def ofNat (n : Nat) : JSNum := fin n

end JSNum

/-- A value read from a parsed JSON body (or built by the form).  An array or a
plain object is represented by what its conversion to a primitive yields, which
is all that `typeof`, `!`, `String(...)` and `Number(...)` observe of it: the
string of its `toString`, or nothing when the conversion throws a `TypeError`
(an object with an own `toString` property, which in JSON is never a function,
or an array that holds such an object). -/
inductive JSVal where
  | undefined
  | null
  | bool (b : Bool)
  | num (n : JSNum)
  | str (s : String)
  | object (repr : Option String)
  deriving DecidableEq

/-- The two conversions of the language that the handlers call and that parse
or print numerals: `StringToNumber` and `Number::toString`.  They belong to the
JavaScript runtime, not to the repository, and are taken as given. -/
structure Builtins where
  stringToNumber : String → JSNum
  numberToString : JSNum → String

/-- White space and line terminators, the characters `String.prototype.trim`
strips. -/
def isWhiteSpace (c : Char) : Bool :=
  decide (c.toNat ∈ [0x09, 0x0A, 0x0B, 0x0C, 0x0D, 0x20, 0xA0, 0x1680, 0x2028, 0x2029,
    0x202F, 0x205F, 0x3000, 0xFEFF]) || (decide (0x2000 ≤ c.toNat) && decide (c.toNat ≤ 0x200A))

/-- The characters of `s.trim()`. -/
def trimChars (cs : List Char) : List Char :=
  (cs.dropWhile isWhiteSpace).rdropWhile isWhiteSpace

/-- The method `s.trim()` of a string; a string is taken as its sequence of
Unicode characters. -/
def jsTrim (s : String) : String := ⟨trimChars s.data⟩

namespace JSVal

/-- The test `v === undefined`. -/
def isUndefined : JSVal → Bool
  | undefined => true
  | _ => false

/-- The operator `typeof v`. -/
def typeof : JSVal → String
  | undefined => "undefined"
  | null => "object"
  | bool _ => "boolean"
  | num _ => "number"
  | str _ => "string"
  | object _ => "object"

/-- Truthiness of a value: `!v` is the negation of this. -/
def truthy : JSVal → Bool
  | undefined => false
  | null => false
  | bool b => b
  | num .nan => false
  | num (.fin q) => decide (q ≠ 0)
  | num _ => true
  | str s => decide (s ≠ "")
  | object _ => true

/-- The conversion `Number(v)`: the number, or nothing when it throws a
`TypeError`. -/
def toNumber (rt : Builtins) : JSVal → Option JSNum
  | undefined => some .nan
  | null => some (.fin 0)
  | bool true => some (.fin 1)
  | bool false => some (.fin 0)
  | num n => some n
  | str s => some (rt.stringToNumber s)
  | object (some r) => some (rt.stringToNumber r)
  | object none => none

/-- The conversion `String(v)`: the string, or nothing when it throws a
`TypeError`. -/
def toStr (rt : Builtins) : JSVal → Option String
  | undefined => some "undefined"
  | null => some "null"
  | bool true => some "true"
  | bool false => some "false"
  | num n => some (rt.numberToString n)
  | str s => some s
  | object r => r

end JSVal

/-- A request body seen through property reads: `body "title"` is `body.title`,
and a property the object lacks reads as `undefined`. -/
abbrev Payload := String → JSVal

/-- The object literal with the listed properties (keys pairwise distinct). -/
def Payload.ofFields (fields : List (String × JSVal)) : Payload :=
  fun key => (fields.lookup key).getD JSVal.undefined

/-! ## Responses -/

/-- The JSON body of a response. -/
inductive Body (α : Type) where
  | record (r : α)
  | records (rs : List α)
  | errors (es : List String)
  | error (msg : String)
  | empty
  deriving DecidableEq

/-- A response: status code and body. -/
structure Response (α : Type) where
  status : Nat
  body : Body α
  deriving DecidableEq

/-- The in-place mutation of the object that `find` returned: the first record of
the array selected by `sel` becomes `r`. -/
def writeBack {α : Type} (sel : α → Bool) (r : α) : List α → List α
  | [] => []
  | x :: xs => if sel x then r :: xs else x :: writeBack sel r xs

/-! ## Product catalogue (`practice 4/backend/server.js`) -/

namespace Practice4

/-- A stored product. -/
structure Product where
  id : String
  title : String
  category : String
  description : String
  price : JSNum
  stock : JSNum
  deriving DecidableEq

/-- The condition `typeof v !== "string" || !v.trim()`. -/
def invalidString (v : JSVal) : Bool :=
  v.typeof != "string" ||
    (match v with
     | .str s => jsTrim s == ""
     | _ => true)

/-- The condition `!Number.isFinite(price) || price < 0`. -/
def invalidPrice (price : JSNum) : Bool :=
  !price.isFinite || price.lt (.fin 0)

/-- The condition `!Number.isInteger(stock) || stock < 0`. -/
def invalidStock (stock : JSNum) : Bool :=
  !stock.isInteger || stock.lt (.fin 0)

/-- The statement `if (c) errors.push(msg)`. -/
def pushIf (c : Bool) (msg : String) (errors : List String) : List String :=
  if c then errors ++ [msg] else errors

/-- The block `if (checked) { const n = Number(v); if (invalid(n)) errors.push(msg) }`,
where `n` is what `Number(v)` gives: the error list after the block, or nothing
when the block is entered and `Number(v)` throws. -/
def checkNumber (checked : Bool) (n : Option JSNum) (invalid : JSNum → Bool) (msg : String)
    (errors : List String) : Option (List String) :=
  if checked then
    match n with
    | some n => some (pushIf (invalid n) msg errors)
    | none => none
  else some errors

/-- The function `validateProductPayload(body, isPatch)`: the list it returns, or
nothing when it throws. -/
def validateProductPayload (rt : Builtins) (body : Payload) (isPatch : Bool) :
    Option (List String) :=
  let errors : List String := []
  let hasTitle := !(body "title").isUndefined
  let hasCategory := !(body "category").isUndefined
  let hasDescription := !(body "description").isUndefined
  let hasPrice := !(body "price").isUndefined
  let hasStock := !(body "stock").isUndefined
  if isPatch && !hasTitle && !hasCategory && !hasDescription && !hasPrice && !hasStock then
    some (errors ++ ["Nothing to update"])
  else
    let errors := pushIf ((!isPatch || hasTitle) && invalidString (body "title"))
      "title must be a non-empty string" errors
    let errors := pushIf ((!isPatch || hasCategory) && invalidString (body "category"))
      "category must be a non-empty string" errors
    let errors := pushIf ((!isPatch || hasDescription) && invalidString (body "description"))
      "description must be a non-empty string" errors
    (checkNumber (!isPatch || hasPrice) ((body "price").toNumber rt) invalidPrice
      "price must be a number >= 0" errors).bind fun errors =>
    checkNumber (!isPatch || hasStock) ((body "stock").toNumber rt) invalidStock
      "stock must be an integer >= 0" errors

/-! ### The validator as the specification words it

The five fields, their rules and their messages, written after the
specification, to be compared with `validateProductPayload`. -/

/-- The five validated fields. -/
inductive Field where
  | title
  | category
  | description
  | price
  | stock
  deriving DecidableEq

namespace Field

/-- The fields in the order of the error list. -/
def all : List Field := [title, category, description, price, stock]

/-- The property name of a field. -/
def key : Field → String
  | title => "title"
  | category => "category"
  | description => "description"
  | price => "price"
  | stock => "stock"

/-- The message of a violated field. -/
def message : Field → String
  | title => "title must be a non-empty string"
  | category => "category must be a non-empty string"
  | description => "description must be a non-empty string"
  | price => "price must be a number >= 0"
  | stock => "stock must be an integer >= 0"

/-- A string field violates its rule: the value is not a string, or is empty
after trimming. -/
def blank : JSVal → Bool
  | .str s => decide (jsTrim s = "")
  | _ => true

/-- The price violates its rule: the number is not finite, or is below zero. -/
def negativeOrNotFinite : JSNum → Bool
  | .fin q => decide (q < 0)
  | _ => true

/-- The stock violates its rule: the number is not an integer, or is below zero. -/
def negativeOrNotInteger : JSNum → Bool
  | .fin q => decide (q.den ≠ 1 ∨ q < 0)
  | _ => true

/-- The field of `body` violates its rule; a missing field does.  When `Number`
throws on the price or the stock there is no number to judge, and the field is
not counted. -/
def violates (rt : Builtins) (body : Payload) : Field → Bool
  | title => blank (body "title")
  | category => blank (body "category")
  | description => blank (body "description")
  | price =>
    match (body "price").toNumber rt with
    | some n => negativeOrNotFinite n
    | none => false
  | stock =>
    match (body "stock").toNumber rt with
    | some n => negativeOrNotInteger n
    | none => false

/-- The field is present in `body`: its value is not `undefined`. -/
def present (body : Payload) (f : Field) : Bool := !(body f.key).isUndefined

/-- The field is checked: always in create mode, when present in patch mode. -/
def checked (body : Payload) (isPatch : Bool) (f : Field) : Bool := !isPatch || f.present body

end Field

/-- The conversion `Number(body.price)` or `Number(body.stock)` throws. -/
def conversionThrows (rt : Builtins) (body : Payload) : Bool :=
  ((body "price").toNumber rt).isNone || ((body "stock").toNumber rt).isNone

/-- The error list the specification describes. -/
def expectedErrors (rt : Builtins) (body : Payload) (isPatch : Bool) : List String :=
  if isPatch && Field.all.all (fun f => !f.present body) then ["Nothing to update"]
  else (Field.all.filter (fun f => f.checked body isPatch && f.violates rt body)).map Field.message

/-- The lookup of `findProductOr404`: `products.find((p) => p.id === id)`. -/
def findProductOr404 (products : List Product) (id : String) : Option Product :=
  products.find? (fun p => p.id == id)

/-- The method call `v.trim()`: the trimmed string, or nothing when it throws a
`TypeError` because `v` is not a string. -/
def callTrim : JSVal → Option String
  | .str s => some (jsTrim s)
  | _ => none

/-- The handler of `POST /api/products`; `newId` is the value `nanoid(6)` returns.
An exception thrown in a handler reaches the error handler of the application,
which answers 500. -/
def postProduct (rt : Builtins) (products : List Product) (newId : String) (body : Payload) :
    List Product × Response Product :=
  match validateProductPayload rt body false with
  | none => (products, ⟨500, .error "Internal server error"⟩)
  | some errors =>
    if errors.length != 0 then (products, ⟨400, .errors errors⟩)
    else
      match callTrim (body "title"), callTrim (body "category"), callTrim (body "description"),
        (body "price").toNumber rt, (body "stock").toNumber rt with
      | some title, some category, some description, some price, some stock =>
        let newProduct : Product := ⟨newId, title, category, description, price, stock⟩
        (products ++ [newProduct], ⟨201, .record newProduct⟩)
      | _, _, _, _, _ => (products, ⟨500, .error "Internal server error"⟩)

/-- The handler of `GET /api/products`. -/
def getProducts (products : List Product) : List Product × Response Product :=
  (products, ⟨200, .records products⟩)

/-- The handler of `GET /api/products/:id`. -/
def getProduct (products : List Product) (id : String) : List Product × Response Product :=
  match findProductOr404 products id with
  | none => (products, ⟨404, .error "Product not found"⟩)
  | some product => (products, ⟨200, .record product⟩)

/-- One assignment `if (v !== undefined) product.field = v.trim()`; the error value
is the record as it stands when `v.trim()` throws. -/
def assignTrimmed (set : Product → String → Product) (v : JSVal) (product : Product) :
    Except Product Product :=
  if v.isUndefined then .ok product
  else
    match callTrim v with
    | some s => .ok (set product s)
    | none => .error product

/-- One assignment `if (v !== undefined) product.field = Number(v)`; the error
value is the record as it stands when `Number(v)` throws. -/
def assignNumber (rt : Builtins) (set : Product → JSNum → Product) (v : JSVal)
    (product : Product) : Except Product Product :=
  if v.isUndefined then .ok product
  else
    match v.toNumber rt with
    | some n => .ok (set product n)
    | none => .error product

/-- The five assignments of the PATCH handler, in source order. -/
def assignFields (rt : Builtins) (body : Payload) (product : Product) : Except Product Product := do
  let product ← assignTrimmed (fun p s => { p with title := s }) (body "title") product
  let product ← assignTrimmed (fun p s => { p with category := s }) (body "category") product
  let product ← assignTrimmed (fun p s => { p with description := s }) (body "description") product
  let product ← assignNumber rt (fun p n => { p with price := n }) (body "price") product
  let product ← assignNumber rt (fun p n => { p with stock := n }) (body "stock") product
  return product

/-- The handler of `PATCH /api/products/:id`. -/
def patchProduct (rt : Builtins) (products : List Product) (id : String) (body : Payload) :
    List Product × Response Product :=
  match findProductOr404 products id with
  | none => (products, ⟨404, .error "Product not found"⟩)
  | some product =>
    match validateProductPayload rt body true with
    | none => (products, ⟨500, .error "Internal server error"⟩)
    | some errors =>
      if errors.length != 0 then (products, ⟨400, .errors errors⟩)
      else
        match assignFields rt body product with
        | .ok updated =>
          (writeBack (fun p => p.id == id) updated products, ⟨200, .record updated⟩)
        | .error mutated =>
          (writeBack (fun p => p.id == id) mutated products,
            ⟨500, .error "Internal server error"⟩)

/-- The handler of `DELETE /api/products/:id`. -/
def deleteProduct (products : List Product) (id : String) : List Product × Response Product :=
  let exists_ := products.any (fun p => p.id == id)
  if !exists_ then (products, ⟨404, .error "Product not found"⟩)
  else (products.filter (fun p => p.id != id), ⟨204, .empty⟩)

/-- A request that can change the store; `newId` is what `nanoid(6)` returns while
the create request is handled. -/
inductive Request where
  | create (newId : String) (body : Payload)
  | update (id : String) (body : Payload)
  | delete (id : String)

/-- The routing of a request to its handler. -/
def handle (rt : Builtins) (products : List Product) : Request → List Product × Response Product
  | .create newId body => postProduct rt products newId body
  | .update id body => patchProduct rt products id body
  | .delete id => deleteProduct products id

/-- The ids of the store, in order. -/
def ids (products : List Product) : List String := products.map (fun p => p.id)

/-! ### Stored records as the specification words them -/

/-- The demo data the server starts with; `nanoid i` is the value the `i`-th call
of `nanoid(6)` returns. -/
def demoProducts (nanoid : Nat → String) : List Product :=
  [
    ⟨nanoid 0, "Беспроводная мышь Logitech M185", "Периферия",
      "Компактная мышь с USB-ресивером и длительной автономностью.", .fin 1290, .fin 35⟩,
    ⟨nanoid 1, "Клавиатура Redragon Kumara", "Периферия",
      "Механическая клавиатура с подсветкой и защитой от ghosting.", .fin 3590, .fin 18⟩,
    ⟨nanoid 2, "Монитор Samsung 24\"", "Мониторы",
      "IPS-матрица, Full HD, частота обновления 75 Гц.", .fin 12990, .fin 12⟩,
    ⟨nanoid 3, "Наушники Sony WH-CH520", "Аудио",
      "Bluetooth-наушники с микрофоном и автономностью до 50 часов.", .fin 5490, .fin 22⟩,
    ⟨nanoid 4, "Веб-камера Logitech C270", "Веб-камеры",
      "HD 720p, встроенный микрофон, автоэкспозиция.", .fin 2490, .fin 16⟩,
    ⟨nanoid 5, "SSD Kingston NV2 1TB", "Накопители",
      "M.2 NVMe SSD, высокая скорость чтения и записи.", .fin 6990, .fin 27⟩,
    ⟨nanoid 6, "Ноутбук ASUS VivoBook 15", "Ноутбуки",
      "15.6”, Ryzen 5, 16GB RAM, SSD 512GB.", .fin 58990, .fin 7⟩,
    ⟨nanoid 7, "Wi‑Fi роутер TP-Link Archer C6", "Сеть",
      "Двухдиапазонный роутер с поддержкой MU-MIMO.", .fin 3290, .fin 19⟩,
    ⟨nanoid 8, "USB‑хаб UGREEN 4 порта", "Аксессуары",
      "USB 3.0 хаб для подключения периферии.", .fin 1490, .fin 44⟩,
    ⟨nanoid 9, "Колонки Creative Pebble 2.0", "Аудио",
      "Компактные настольные колонки с питанием от USB.", .fin 2990, .fin 14⟩
  ]

/-- A stored string field is non-empty and equal to its own trim. -/
def trimmedNonEmpty (s : String) : Bool :=
  decide (s ≠ "") && decide (jsTrim s = s)

/-- A stored price is a finite number that is at least zero. -/
def finiteNonNegative : JSNum → Bool
  | .fin q => decide (0 ≤ q)
  | _ => false

/-- A stored stock is an integer that is at least zero. -/
def integerNonNegative : JSNum → Bool
  | .fin q => decide (q.den = 1) && decide (0 ≤ q)
  | _ => false

/-- A stored record is valid and normalised: title, category and description are
non-empty strings equal to their own trim, the price is a finite number that is
at least zero and the stock an integer that is at least zero. -/
def Product.normalised (p : Product) : Bool :=
  trimmedNonEmpty p.title && trimmedNonEmpty p.category && trimmedNonEmpty p.description &&
    finiteNonNegative p.price && integerNonNegative p.stock

/-- A stored record read back as a payload, the object `res.json(product)` sends. -/
def Product.toPayload (p : Product) : Payload :=
  Payload.ofFields [("id", .str p.id), ("title", .str p.title), ("category", .str p.category),
    ("description", .str p.description), ("price", .num p.price), ("stock", .num p.stock)]

/-- The store after a sequence of requests, handled one after the other. -/
def handleAll (rt : Builtins) (products : List Product) (reqs : List Request) : List Product :=
  reqs.foldl (fun store req => (handle rt store req).1) products

/-- The record of the example of the specification. -/
def mouse : Product := ⟨"a1", "Mouse", "Peripherals", "x", .fin 100, .fin 5⟩

/-- A second record for the examples. -/
def keyboard : Product := ⟨"b2", "Keyboard", "Peripherals", "y", .fin 300, .fin 2⟩

end Practice4

/-! ## User list (`practice 5/backend/server.js`) -/

namespace Practice5

/-- A stored user. -/
structure User where
  id : String
  name : String
  age : JSNum
  deriving DecidableEq

/-- The lookup of `findUserOr404`: `users.find((u) => u.id === id)`. -/
def findUserOr404 (users : List User) (id : String) : Option User :=
  users.find? (fun u => u.id == id)

/-- The condition `!Number.isFinite(parsedAge) || parsedAge < 0 || parsedAge > 150`. -/
def invalidAge (parsedAge : JSNum) : Bool :=
  !parsedAge.isFinite || parsedAge.lt (.fin 0) || parsedAge.gt (.fin 150)

/-- The handler of `POST /api/users`; `newId` is the value `nanoid(6)` returns. -/
def postUser (rt : Builtins) (users : List User) (newId : String) (body : Payload) :
    List User × Response User :=
  let name := body "name"
  let age := body "age"
  if !name.truthy || age.isUndefined then
    (users, ⟨400, .error "Name and age are required"⟩)
  else
    match name.toStr rt with
    | none => (users, ⟨500, .error "Internal server error"⟩)
    | some nameString =>
      let trimmedName := jsTrim nameString
      match age.toNumber rt with
      | none => (users, ⟨500, .error "Internal server error"⟩)
      | some parsedAge =>
        if trimmedName == "" || invalidAge parsedAge then
          (users, ⟨400, .error "Invalid name or age"⟩)
        else
          let newUser : User := ⟨newId, trimmedName, parsedAge⟩
          (users ++ [newUser], ⟨201, .record newUser⟩)

/-- The payloads the specification lets `POST /api/users` accept: the name is a
string that is non-empty after trimming, the age is present and `Number(age)`
is a finite number from 0 to 150. -/
def accepted (rt : Builtins) (body : Payload) : Prop :=
  (∃ s, body "name" = .str s ∧ jsTrim s ≠ "") ∧
  body "age" ≠ .undefined ∧
  ∃ q : ℚ, (body "age").toNumber rt = some (.fin q) ∧ 0 ≤ q ∧ q ≤ 150

/-- The handler of `GET /api/users`. -/
def getUsers (users : List User) : List User × Response User :=
  (users, ⟨200, .records users⟩)

/-- The block `if (req.body.name !== undefined) ...` of the PATCH handler: the
response it ends the request with (its own 400, or the 500 of the error handler
when `String(...)` throws), or the user record after the assignment. -/
def patchName (rt : Builtins) (body : Payload) (user : User) : Except (Response User) User :=
  if !(body "name").isUndefined then
    match (body "name").toStr rt with
    | none => .error ⟨500, .error "Internal server error"⟩
    | some nameString =>
      let trimmedName := jsTrim nameString
      if trimmedName == "" then .error ⟨400, .error "Invalid name"⟩
      else .ok { user with name := trimmedName }
  else .ok user

/-- The block `if (req.body.age !== undefined) ...` of the PATCH handler. -/
def patchAge (rt : Builtins) (body : Payload) (user : User) : Except (Response User) User :=
  if !(body "age").isUndefined then
    match (body "age").toNumber rt with
    | none => .error ⟨500, .error "Internal server error"⟩
    | some parsedAge =>
      if invalidAge parsedAge then .error ⟨400, .error "Invalid age"⟩
      else .ok { user with age := parsedAge }
  else .ok user

/-- The handler of `PATCH /api/users/:id`.  The name block runs, and assigns,
before the age block is looked at. -/
def patchUser (rt : Builtins) (users : List User) (id : String) (body : Payload) :
    List User × Response User :=
  match findUserOr404 users id with
  | none => (users, ⟨404, .error "User not found"⟩)
  | some user =>
    if (body "name").isUndefined && (body "age").isUndefined then
      (users, ⟨400, .error "Nothing to update"⟩)
    else
      match patchName rt body user with
      | .error res => (users, res)
      | .ok named =>
        match patchAge rt body named with
        | .error res => (writeBack (fun u => u.id == id) named users, res)
        | .ok aged => (writeBack (fun u => u.id == id) aged users, ⟨200, .record aged⟩)

/-- The handler of `DELETE /api/users/:id`. -/
def deleteUser (users : List User) (id : String) : List User × Response User :=
  let exists_ := users.any (fun u => u.id == id)
  if !exists_ then (users, ⟨404, .error "User not found"⟩)
  else (users.filter (fun u => u.id != id), ⟨204, .empty⟩)

end Practice5

/-! ## Product form (`practice 4/frontend/src/components/ProductModal.jsx`) -/

namespace ProductModal

/-- What `handleSubmit` does after `e.preventDefault()`: it shows an alert and
returns, or it calls `onSubmit` with a payload. -/
inductive SubmitResult where
  | alert (msg : String)
  | onSubmit (payload : Payload)

/-- The function `handleSubmit`, from the five state strings of the form;
`initialId` is `initialProduct?.id`.  The state variables `price` and `stock`
are strings, on which `Number(...)` is `StringToNumber` and never throws. -/
def handleSubmit (rt : Builtins) (initialId : JSVal)
    (title category description price stock : String) : SubmitResult :=
  let t := jsTrim title
  let c := jsTrim category
  let d := jsTrim description
  let p := rt.stringToNumber price
  let s := rt.stringToNumber stock
  if t == "" || c == "" || d == "" then
    .alert "Заполните название, категорию и описание"
  else if !p.isFinite || p.lt (.fin 0) then
    .alert "Цена должна быть числом >= 0"
  else if !s.isInteger || s.lt (.fin 0) then
    .alert "Количество должно быть целым числом >= 0"
  else
    .onSubmit (Payload.ofFields [("id", initialId), ("title", .str t), ("category", .str c),
      ("description", .str d), ("price", .num p), ("stock", .num s)])

/-- The body the form fields make when sent as they are. -/
def formBody (title category description price stock : String) : Payload :=
  Payload.ofFields [("title", .str title), ("category", .str category),
    ("description", .str description), ("price", .str price), ("stock", .str stock)]

end ProductModal

/-! ## A runtime for concrete requests -/

/-- The value of an unsigned decimal integer literal. -/
def decimalValue (cs : List Char) : Nat :=
  cs.foldl (fun n c => 10 * n + (c.toNat - 48)) 0

/-- A runtime for evaluating the handlers on concrete requests.  It agrees with
ECMAScript on the strings made of white space only (value 0), on unsigned
decimal integer literals of at most 15 digits (each is exactly a binary64
value), and on printing `NaN`, the infinities and the natural numbers below
`10 ^ 15`.  Every other string reads as `NaN` and every other number prints as
`NaN` here, which is not what ECMAScript does; no example below converts such a
string or such a number. -/
def Builtins.decimal : Builtins where
  stringToNumber s :=
    let cs := trimChars s.data
    if cs.all Char.isDigit && decide (cs.length ≤ 15) then .fin (decimalValue cs) else .nan
  numberToString n :=
    match n with
    | .nan => "NaN"
    | .posInf => "Infinity"
    | .negInf => "-Infinity"
    | .fin q =>
      if q.isInt && decide (0 ≤ q.num) && decide (q.num.toNat < 10 ^ 15) then
        Nat.repr q.num.toNat
      else "NaN"

/-! # Properties -/

/-! ## Lists: the first record a selector matches -/

section Lists

variable {α : Type}

theorem exists_first_match (sel : α → Bool) (l : List α) (h : ∃ x ∈ l, sel x = true) :
    ∃ before target after, l = before ++ target :: after ∧
      (∀ x ∈ before, sel x = false) ∧ sel target = true := by
  induction l with
  | nil => simp at h
  | cons x xs ih =>
    by_cases hx : sel x = true
    · exact ⟨[], x, xs, rfl, by simp, hx⟩
    · have h2 : ∃ y ∈ xs, sel y = true := by
        obtain ⟨y, hy, hs⟩ := h
        rcases List.mem_cons.mp hy with rfl | hy
        · exact absurd hs hx
        · exact ⟨y, hy, hs⟩
      obtain ⟨before, target, after, rfl, hb, ht⟩ := ih h2
      refine ⟨x :: before, target, after, rfl, ?_, ht⟩
      intro y hy
      rcases List.mem_cons.mp hy with rfl | hy
      · simpa using hx
      · exact hb y hy

theorem find?_first_match (sel : α → Bool) (before after : List α) (target : α)
    (hb : ∀ x ∈ before, sel x = false) (ht : sel target = true) :
    (before ++ target :: after).find? sel = some target := by
  induction before with
  | nil => simp [List.find?, ht]
  | cons x xs ih =>
    have hx : sel x = false := hb x (by simp)
    simp only [List.cons_append, List.find?, hx]
    exact ih (fun y hy => hb y (by simp [hy]))

theorem writeBack_first_match (sel : α → Bool) (r : α) (before after : List α) (target : α)
    (hb : ∀ x ∈ before, sel x = false) (ht : sel target = true) :
    writeBack sel r (before ++ target :: after) = before ++ r :: after := by
  induction before with
  | nil => simp [writeBack, ht]
  | cons x xs ih =>
    have hx : sel x = false := hb x (by simp)
    simp only [List.cons_append, writeBack, hx]
    simp [ih (fun y hy => hb y (by simp [hy]))]

theorem any_first_match (sel : α → Bool) (before after : List α) (target : α)
    (ht : sel target = true) : (before ++ target :: after).any sel = true := by
  simp [List.any_append, ht]

end Lists

/-! ## Trimming -/

theorem dropWhile_head_not {α : Type} (p : α → Bool) (l : List α) (a : α) (rest : List α)
    (h : l.dropWhile p = a :: rest) : p a = false := by
  induction l with
  | nil => simp at h
  | cons x xs ih =>
    by_cases hx : p x = true
    · rw [List.dropWhile_cons_of_pos hx] at h
      exact ih h
    · rw [List.dropWhile_cons_of_neg hx] at h
      cases h
      simpa using hx

theorem trimChars_idempotent (cs : List Char) : trimChars (trimChars cs) = trimChars cs := by
  unfold trimChars
  have hd : ((cs.dropWhile isWhiteSpace).rdropWhile isWhiteSpace).dropWhile isWhiteSpace =
      (cs.dropWhile isWhiteSpace).rdropWhile isWhiteSpace := by
    cases hm : (cs.dropWhile isWhiteSpace).rdropWhile isWhiteSpace with
    | nil => rfl
    | cons a rest =>
      obtain ⟨t, ht⟩ := List.rdropWhile_prefix isWhiteSpace (l := cs.dropWhile isWhiteSpace)
      rw [hm] at ht
      have hna : isWhiteSpace a = false := dropWhile_head_not isWhiteSpace cs a (rest ++ t) ht.symm
      simp [List.dropWhile, hna]
  rw [hd, List.rdropWhile_idempotent]

theorem jsTrim_idempotent (s : String) : jsTrim (jsTrim s) = jsTrim s := by
  simp [jsTrim, trimChars_idempotent]

theorem jsTrim_empty : jsTrim "" = "" := by decide

theorem beq_empty_eq_false (s : String) (h : s ≠ "") : (s == "") = false := by
  simpa using h

namespace Practice4

/-! ## The product validator -/

theorem invalidString_eq_blank (v : JSVal) : invalidString v = Field.blank v := by
  cases v <;> simp [invalidString, Field.blank, JSVal.typeof, beq_eq_decide]

theorem invalidPrice_eq (n : JSNum) : invalidPrice n = Field.negativeOrNotFinite n := by
  cases n <;> simp [invalidPrice, Field.negativeOrNotFinite, JSNum.isFinite, JSNum.lt]

theorem invalidStock_eq (n : JSNum) : invalidStock n = Field.negativeOrNotInteger n := by
  cases n with
  | fin q =>
    by_cases h1 : q.den = 1 <;> by_cases h2 : q < 0 <;>
      simp [invalidStock, Field.negativeOrNotInteger, JSNum.isInteger, JSNum.lt, Rat.isInt, h1, h2]
  | _ => simp [invalidStock, Field.negativeOrNotInteger, JSNum.isInteger, JSNum.lt]

theorem toNumber_eq_none (rt : Builtins) (v : JSVal) (h : v.toNumber rt = none) :
    v = .object none := by
  cases v with
  | object r => cases r <;> simp_all [JSVal.toNumber]
  | bool b => cases b <;> simp [JSVal.toNumber] at h
  | _ => simp [JSVal.toNumber] at h

theorem validate_of_converts (rt : Builtins) (body : Payload) (isPatch : Bool) (np ns : JSNum)
    (hp : (body "price").toNumber rt = some np) (hs : (body "stock").toNumber rt = some ns) :
    validateProductPayload rt body isPatch = some (expectedErrors rt body isPatch) := by
  unfold validateProductPayload expectedErrors
  simp only [invalidString_eq_blank, hp, hs, checkNumber, invalidPrice_eq, invalidStock_eq]
  simp only [Field.all, Field.present, Field.checked, Field.key, Field.violates, hp, hs,
    List.all_cons, List.all_nil, List.filter_cons, List.filter_nil]
  generalize (body "title").isUndefined = u1
  generalize (body "category").isUndefined = u2
  generalize (body "description").isUndefined = u3
  generalize (body "price").isUndefined = u4
  generalize (body "stock").isUndefined = u5
  generalize Field.blank (body "title") = v1
  generalize Field.blank (body "category") = v2
  generalize Field.blank (body "description") = v3
  generalize Field.negativeOrNotFinite np = v4
  generalize Field.negativeOrNotInteger ns = v5
  cases isPatch <;> cases u1 <;> cases u2 <;> cases u3 <;> cases u4 <;> cases u5 <;>
    cases v1 <;> cases v2 <;> cases v3 <;> cases v4 <;> cases v5 <;> rfl

theorem validate_of_throws (rt : Builtins) (body : Payload) (isPatch : Bool)
    (h : conversionThrows rt body = true) : validateProductPayload rt body isPatch = none := by
  simp only [conversionThrows, Bool.or_eq_true, Option.isNone_iff_eq_none] at h
  unfold validateProductPayload
  rcases h with h | h
  · have hv := toNumber_eq_none rt _ h
    simp [hv, JSVal.isUndefined, JSVal.toNumber, checkNumber]
  · have hv := toNumber_eq_none rt _ h
    cases hp : (body "price").toNumber rt with
    | none =>
      have hv2 := toNumber_eq_none rt _ hp
      simp [hv2, JSVal.isUndefined, JSVal.toNumber, checkNumber]
    | some np =>
      simp only [hv, JSVal.isUndefined, JSVal.toNumber, checkNumber]
      cases isPatch <;> cases (body "price").isUndefined <;> simp

theorem converts_of_not_throws (rt : Builtins) (body : Payload)
    (h : conversionThrows rt body = false) :
    ∃ np ns, (body "price").toNumber rt = some np ∧ (body "stock").toNumber rt = some ns := by
  simp only [conversionThrows, Bool.or_eq_false_iff] at h
  cases hp : (body "price").toNumber rt with
  | none => simp [hp] at h
  | some np =>
    cases hs : (body "stock").toNumber rt with
    | none => simp [hs] at h
    | some ns => exact ⟨np, ns, rfl, rfl⟩

theorem validate_eq_expected (rt : Builtins) (body : Payload) (isPatch : Bool) :
    validateProductPayload rt body isPatch =
      if conversionThrows rt body then none else some (expectedErrors rt body isPatch) := by
  by_cases h : conversionThrows rt body = true
  · rw [if_pos h]
    exact validate_of_throws rt body isPatch h
  · rw [if_neg h]
    obtain ⟨np, ns, hp, hs⟩ := converts_of_not_throws rt body (by simpa using h)
    exact validate_of_converts rt body isPatch np ns hp hs

theorem Field.mem_all (f : Field) : f ∈ Field.all := by
  cases f <;> simp [Field.all]

theorem expectedErrors_nil_iff (rt : Builtins) (body : Payload) (isPatch : Bool) :
    expectedErrors rt body isPatch = [] ↔
      ¬ (isPatch = true ∧ ∀ f : Field, f.present body = false) ∧
      ∀ f : Field, f.checked body isPatch = true → f.violates rt body = false := by
  rw [expectedErrors]
  by_cases h : (isPatch && Field.all.all (fun f => !f.present body)) = true
  · rw [if_pos h]
    simp only [Bool.and_eq_true, List.all_eq_true, Bool.not_eq_true'] at h
    constructor
    · intro hc
      cases hc
    · rintro ⟨hn, _⟩
      exact absurd ⟨h.1, fun f => h.2 f (Field.mem_all f)⟩ hn
  · rw [if_neg h]
    simp only [List.map_eq_nil_iff, List.filter_eq_nil_iff, Bool.and_eq_true, not_and,
      Bool.not_eq_true]
    constructor
    · intro hall
      refine ⟨?_, fun f hc => hall f (Field.mem_all f) hc⟩
      intro hc hf
      apply h
      simp only [Bool.and_eq_true, List.all_eq_true, Bool.not_eq_true']
      exact ⟨hc, fun f _ => hf f⟩
    · rintro ⟨_, hall⟩ f _ hc
      exact hall f hc

theorem validate_nil_iff (rt : Builtins) (body : Payload) (isPatch : Bool) :
    validateProductPayload rt body isPatch = some [] ↔
      conversionThrows rt body = false ∧
      ¬ (isPatch = true ∧ ∀ f : Field, f.present body = false) ∧
      ∀ f : Field, f.checked body isPatch = true → f.violates rt body = false := by
  rw [validate_eq_expected]
  by_cases h : conversionThrows rt body = true
  · simp [h]
  · have hf : conversionThrows rt body = false := by simpa using h
    rw [if_neg h, Option.some.injEq, expectedErrors_nil_iff]
    simp [hf]

theorem blank_false (v : JSVal) (h : Field.blank v = false) :
    ∃ s, v = .str s ∧ jsTrim s ≠ "" := by
  cases v <;> simp_all [Field.blank]

/-- Claim C3, amended: on every payload on which neither `Number(body.price)` nor
`Number(body.stock)` throws, the validator returns a list; in create mode it is
the messages, in field order, of the fields that violate their rule; in patch
mode it is that list restricted to the present fields, and exactly
`["Nothing to update"]` when no field is present; the list is empty exactly when
no checked field violates its rule and, in patch mode, some field is present. -/
theorem validateProductPayload_reports_every_violation (rt : Builtins) (body : Payload)
    (hconv : conversionThrows rt body = false) :
    validateProductPayload rt body false =
        some ((Field.all.filter (fun f => f.violates rt body)).map Field.message) ∧
    ((∃ f : Field, f.present body = true) →
      validateProductPayload rt body true =
        some ((Field.all.filter (fun f => f.present body && f.violates rt body)).map
          Field.message)) ∧
    ((∀ f : Field, f.present body = false) →
      validateProductPayload rt body true = some ["Nothing to update"]) ∧
    (∀ isPatch : Bool, validateProductPayload rt body isPatch = some [] ↔
      ¬ (isPatch = true ∧ ∀ f : Field, f.present body = false) ∧
      ∀ f : Field, f.checked body isPatch = true → f.violates rt body = false) := by
  have hexp : ∀ isPatch, validateProductPayload rt body isPatch =
      some (expectedErrors rt body isPatch) := by
    intro isPatch
    rw [validate_eq_expected, hconv]
    rfl
  refine ⟨?_, ?_, ?_, ?_⟩
  · rw [hexp]
    simp [expectedErrors, Field.checked]
  · rintro ⟨f, hf⟩
    rw [hexp, expectedErrors, if_neg]
    · simp [Field.checked]
    · simp only [Bool.true_and, List.all_eq_true, Bool.not_eq_true', not_forall]
      exact ⟨f, Field.mem_all f, by simp [hf]⟩
  · intro h
    rw [hexp, expectedErrors, if_pos]
    simp only [Bool.true_and, List.all_eq_true, Bool.not_eq_true']
    exact fun f _ => h f
  · intro isPatch
    rw [validate_nil_iff]
    simp [hconv]

/-- Claim C3, amended, on two payloads: a create payload with three violations
next to a valid title and price, and the patch payload `price: 200, stock: -1`. -/
theorem validateProductPayload_reports_every_violation_witness :
    validateProductPayload Builtins.decimal
        (Payload.ofFields [("title", .str "Pad"), ("category", .num (.fin 5)),
          ("description", .str "  "), ("price", .str "7"), ("stock", .null)]) false =
      some ["category must be a non-empty string", "description must be a non-empty string"] ∧
    validateProductPayload Builtins.decimal
        (Payload.ofFields [("price", .num (.fin 200)), ("stock", .num (.fin (-1)))]) true =
      some ["stock must be an integer >= 0"] :=
  ⟨(validateProductPayload_reports_every_violation Builtins.decimal
      (Payload.ofFields [("title", .str "Pad"), ("category", .num (.fin 5)),
        ("description", .str "  "), ("price", .str "7"), ("stock", .null)]) (by decide)).1,
   (validateProductPayload_reports_every_violation Builtins.decimal
      (Payload.ofFields [("price", .num (.fin 200)), ("stock", .num (.fin (-1)))])
      (by decide)).2.1 ⟨.price, by decide⟩⟩

/-- Claim C3 as stated fails on the empty patch payload: no field is checked, so
no checked field violates its rule, and yet the list is not empty. -/
theorem validateProductPayload_nothing_to_update :
    validateProductPayload Builtins.decimal (Payload.ofFields []) true =
      some ["Nothing to update"] ∧
    Field.all.filter (fun f => f.checked (Payload.ofFields []) true &&
      f.violates Builtins.decimal (Payload.ofFields [])) = [] := by
  decide

/-- The validator on a payload whose price cannot be converted to a primitive:
`Number(body.price)` throws and no list is returned, in either mode. -/
theorem validateProductPayload_throws_on_price :
    validateProductPayload Builtins.decimal
        (Payload.ofFields [("title", .num (.fin 5)), ("price", .object none)]) false = none ∧
    validateProductPayload Builtins.decimal
        (Payload.ofFields [("title", .num (.fin 5)), ("price", .object none)]) true = none := by
  decide

/-! ## The product handlers -/

theorem find_of_mem (products : List Product) (id : String) (h : ∃ p ∈ products, p.id = id) :
    ∃ before target after, products = before ++ target :: after ∧
      (∀ p ∈ before, p.id ≠ id) ∧ target.id = id ∧
      findProductOr404 products id = some target ∧
      ∀ r, writeBack (fun p => p.id == id) r products = before ++ r :: after := by
  have h2 : ∃ p ∈ products, (fun p : Product => p.id == id) p = true := by
    obtain ⟨p, hp, he⟩ := h
    exact ⟨p, hp, by simp [he]⟩
  obtain ⟨before, target, after, rfl, hb, ht⟩ := exists_first_match _ products h2
  refine ⟨before, target, after, rfl, ?_, by simpa using ht, ?_, ?_⟩
  · intro p hp
    have := hb p hp
    simpa using this
  · exact find?_first_match _ before after target hb ht
  · intro r
    exact writeBack_first_match _ r before after target hb ht

theorem length_ne_zero_eq_false {α : Type} (l : List α) (h : l = []) : (l.length != 0) = false := by
  simp [h]

theorem length_ne_zero_eq_true {α : Type} (l : List α) (h : l ≠ []) : (l.length != 0) = true := by
  simpa using h

theorem create_string_field (rt : Builtins) (body : Payload)
    (hval : validateProductPayload rt body false = some []) (f : Field) :
    f.violates rt body = false :=
  ((validate_nil_iff rt body false).mp hval).2.2 f (by simp [Field.checked])

theorem converts_of_valid (rt : Builtins) (body : Payload) (isPatch : Bool)
    (hval : validateProductPayload rt body isPatch = some []) :
    ∃ np ns, (body "price").toNumber rt = some np ∧ (body "stock").toNumber rt = some ns :=
  converts_of_not_throws rt body ((validate_nil_iff rt body isPatch).mp hval).1

theorem create_numbers_valid (rt : Builtins) (body : Payload)
    (hval : validateProductPayload rt body false = some []) :
    ∃ np ns, (body "price").toNumber rt = some np ∧ (body "stock").toNumber rt = some ns ∧
      Field.negativeOrNotFinite np = false ∧ Field.negativeOrNotInteger ns = false := by
  obtain ⟨np, ns, hp, hs⟩ := converts_of_valid rt body false hval
  have h4 := create_string_field rt body hval .price
  have h5 := create_string_field rt body hval .stock
  simp only [Field.violates, hp, hs] at h4 h5
  exact ⟨np, ns, hp, hs, h4, h5⟩

theorem postProduct_of_valid (rt : Builtins) (products : List Product) (newId : String)
    (body : Payload) (hval : validateProductPayload rt body false = some []) :
    ∃ title category description price stock,
      body "title" = .str title ∧ body "category" = .str category ∧
      body "description" = .str description ∧
      (body "price").toNumber rt = some price ∧ (body "stock").toNumber rt = some stock ∧
      postProduct rt products newId body =
        (products ++ [⟨newId, jsTrim title, jsTrim category, jsTrim description, price, stock⟩],
          ⟨201, .record ⟨newId, jsTrim title, jsTrim category, jsTrim description, price,
            stock⟩⟩) := by
  obtain ⟨title, ht, _⟩ := blank_false _ (create_string_field rt body hval .title)
  obtain ⟨category, hc, _⟩ := blank_false _ (create_string_field rt body hval .category)
  obtain ⟨description, hd, _⟩ := blank_false _ (create_string_field rt body hval .description)
  obtain ⟨price, stock, hp, hs⟩ := converts_of_valid rt body false hval
  refine ⟨title, category, description, price, stock, ht, hc, hd, hp, hs, ?_⟩
  simp only [postProduct, hval, hp, hs]
  simp [ht, hc, hd, callTrim]

theorem postProduct_of_invalid (rt : Builtins) (products : List Product) (newId : String)
    (body : Payload) (errors : List String)
    (hlist : validateProductPayload rt body false = some errors) (herr : errors ≠ []) :
    postProduct rt products newId body = (products, ⟨400, .errors errors⟩) := by
  simp only [postProduct, hlist, length_ne_zero_eq_true _ herr, if_true]

theorem postProduct_of_throw (rt : Builtins) (products : List Product) (newId : String)
    (body : Payload) (hthrow : validateProductPayload rt body false = none) :
    postProduct rt products newId body =
      (products, ⟨500, .error "Internal server error"⟩) := by
  simp only [postProduct, hthrow]

/-- Claim C4: on a payload that passes `validateProductPayload(payload, false)`
the three string fields are strings and `Number(...)` of price and stock are
numbers, the store becomes the old sequence followed by one record with the
trimmed strings and those numbers, that record is the body of the 201 response,
and the list route then returns those N+1 records in order; on a payload for
which the validator returns errors, the answer is 400 with them; and on every
payload that does not pass, the store is unchanged. -/
theorem postProduct_appends_one (rt : Builtins) (products : List Product) (newId : String)
    (body : Payload) :
    (validateProductPayload rt body false = some [] →
      ∃ title category description price stock,
        body "title" = .str title ∧ body "category" = .str category ∧
        body "description" = .str description ∧
        (body "price").toNumber rt = some price ∧ (body "stock").toNumber rt = some stock ∧
        postProduct rt products newId body =
          (products ++ [⟨newId, jsTrim title, jsTrim category, jsTrim description, price,
              stock⟩],
            ⟨201, .record ⟨newId, jsTrim title, jsTrim category, jsTrim description, price,
              stock⟩⟩) ∧
        (getProducts (postProduct rt products newId body).1).2 =
          ⟨200, .records (products ++ [⟨newId, jsTrim title, jsTrim category,
              jsTrim description, price, stock⟩])⟩ ∧
        (postProduct rt products newId body).1.length = products.length + 1) ∧
    (∀ errors, validateProductPayload rt body false = some errors → errors ≠ [] →
      postProduct rt products newId body = (products, ⟨400, .errors errors⟩)) ∧
    (validateProductPayload rt body false ≠ some [] →
      (postProduct rt products newId body).1 = products) := by
  refine ⟨?_, ?_, ?_⟩
  · intro hval
    obtain ⟨title, category, description, price, stock, ht, hc, hd, hp, hs, hpost⟩ :=
      postProduct_of_valid rt products newId body hval
    refine ⟨title, category, description, price, stock, ht, hc, hd, hp, hs, hpost, ?_, ?_⟩
    · rw [hpost]; rfl
    · rw [hpost]; simp
  · exact postProduct_of_invalid rt products newId body
  · intro hne
    cases hv : validateProductPayload rt body false with
    | none => rw [postProduct_of_throw rt products newId body hv]
    | some errors =>
      have herr : errors ≠ [] := by
        intro he
        exact hne (by rw [hv, he])
      rw [postProduct_of_invalid rt products newId body errors hv herr]

/-- Claim C4 on the store of the specification: a valid payload grows the store by
one, an invalid one leaves it. -/
theorem postProduct_appends_one_witness :
    (postProduct Builtins.decimal [mouse] "c3"
        (Payload.ofFields [("title", .str " Pad "), ("category", .str "Peripherals"),
          ("description", .str "z"), ("price", .num (.fin 7)), ("stock", .str "12")])).1.length =
      [mouse].length + 1 ∧
    postProduct Builtins.decimal [mouse] "c3" (Payload.ofFields [("title", .str "Pad")]) =
      ([mouse], ⟨400, .errors ["category must be a non-empty string",
        "description must be a non-empty string", "price must be a number >= 0",
        "stock must be an integer >= 0"]⟩) := by
  constructor
  · obtain ⟨_, _, _, _, _, _, _, _, _, _, _, _, hlen⟩ :=
      (postProduct_appends_one Builtins.decimal [mouse] "c3"
        (Payload.ofFields [("title", .str " Pad "), ("category", .str "Peripherals"),
          ("description", .str "z"), ("price", .num (.fin 7)), ("stock", .str "12")])).1 (by decide)
    exact hlen
  · exact (postProduct_appends_one Builtins.decimal [mouse] "c3"
      (Payload.ofFields [("title", .str "Pad")])).2.1 _ (by decide) (by decide)

/-- Claim C1: a PATCH on a product whose id is in the store and whose payload
makes `validateProductPayload(payload, true)` return at least one error answers
400 with the error list and leaves the whole store as it was. -/
theorem patchProduct_invalid_leaves_store (rt : Builtins) (products : List Product) (id : String)
    (body : Payload) (errors : List String) (hid : ∃ p ∈ products, p.id = id)
    (hlist : validateProductPayload rt body true = some errors) (herr : errors ≠ []) :
    patchProduct rt products id body = (products, ⟨400, .errors errors⟩) := by
  obtain ⟨before, target, after, _, _, _, hfind, _⟩ := find_of_mem products id hid
  simp only [patchProduct, hfind, hlist, length_ne_zero_eq_true _ herr, if_true]

/-- The two examples of claim C1 on the store of the specification: the payloads
`price: 200, stock: -1` and `price: -5`. -/
theorem patchProduct_invalid_witness :
    patchProduct Builtins.decimal [mouse] "a1"
        (Payload.ofFields [("price", .num (.fin 200)), ("stock", .num (.fin (-1)))]) =
      ([mouse], ⟨400, .errors ["stock must be an integer >= 0"]⟩) ∧
    patchProduct Builtins.decimal [mouse] "a1" (Payload.ofFields [("price", .num (.fin (-5)))]) =
      ([mouse], ⟨400, .errors ["price must be a number >= 0"]⟩) :=
  ⟨patchProduct_invalid_leaves_store Builtins.decimal [mouse] "a1" _ _ ⟨mouse, by simp, rfl⟩
      (by decide) (by decide),
   patchProduct_invalid_leaves_store Builtins.decimal [mouse] "a1" _ _ ⟨mouse, by simp, rfl⟩
      (by decide) (by decide)⟩

theorem not_any_of_forall_ne (products : List Product) (id : String)
    (h : ∀ p ∈ products, p.id ≠ id) : products.any (fun p => p.id == id) = false := by
  simp only [List.any_eq_false, beq_iff_eq]
  exact h

theorem ids_append (xs ys : List Product) : ids (xs ++ ys) = ids xs ++ ids ys := by
  simp [ids]

theorem filter_ne_first_match (id : String) (before after : List Product) (target : Product)
    (ht : target.id = id) (hb : ∀ p ∈ before, p.id ≠ id) (ha : ∀ p ∈ after, p.id ≠ id) :
    (before ++ target :: after).filter (fun p => p.id != id) = before ++ after := by
  have h1 : before.filter (fun p => p.id != id) = before := by
    rw [List.filter_eq_self]
    intro p hp
    simpa using hb p hp
  have h2 : after.filter (fun p => p.id != id) = after := by
    rw [List.filter_eq_self]
    intro p hp
    simpa using ha p hp
  simp [List.filter_append, List.filter_cons, ht, h1, h2]

/-- Claim C6: in a product store with pairwise distinct ids, deleting an id that
some record carries answers 204 and leaves the old sequence without that one
record, the others in their order (so one record fewer); deleting the same id
again answers 404 and leaves that store as it is. -/
theorem deleteProduct_removes_exactly_one (products : List Product) (id : String)
    (hnodup : (ids products).Nodup) (hid : ∃ p ∈ products, p.id = id) :
    ∃ before target after,
      products = before ++ target :: after ∧ target.id = id ∧
      deleteProduct products id = (before ++ after, ⟨204, .empty⟩) ∧
      (before ++ after).length + 1 = products.length ∧
      deleteProduct (before ++ after) id =
        (before ++ after, ⟨404, .error "Product not found"⟩) := by
  obtain ⟨before, target, after, rfl, hb, ht, _, _⟩ := find_of_mem products id hid
  have ha : ∀ p ∈ after, p.id ≠ id := by
    intro p hp hpid
    rw [ids_append] at hnodup
    have hn := (List.nodup_append.mp hnodup).2.1
    simp only [ids, List.map_cons, List.nodup_cons, List.mem_map, not_exists, not_and] at hn
    exact hn.1 p hp (by rw [hpid, ht])
  have hany : (before ++ target :: after).any (fun p => p.id == id) = true := by
    simp [List.any_append, ht]
  have hrest : ∀ p ∈ before ++ after, p.id ≠ id := by
    intro p hp
    rcases List.mem_append.mp hp with h | h
    · exact hb p h
    · exact ha p h
  refine ⟨before, target, after, rfl, ht, ?_, by simp [Nat.add_assoc], ?_⟩
  · simp only [deleteProduct, hany, filter_ne_first_match id before after target ht hb ha]
    simp
  · have hnone : (before ++ after).any (fun p => p.id == id) = false := by
      simp only [List.any_eq_false, beq_iff_eq]
      exact hrest
    simp only [deleteProduct, hnone]
    simp

/-- Claim C6 on a store of two records. -/
theorem deleteProduct_removes_exactly_one_witness :
    ∃ before target after,
      [mouse, keyboard] = before ++ target :: after ∧ target.id = "a1" ∧
      deleteProduct [mouse, keyboard] "a1" = (before ++ after, ⟨204, .empty⟩) ∧
      (before ++ after).length + 1 = [mouse, keyboard].length ∧
      deleteProduct (before ++ after) "a1" =
        (before ++ after, ⟨404, .error "Product not found"⟩) :=
  deleteProduct_removes_exactly_one [mouse, keyboard] "a1" (by decide) ⟨mouse, by simp, rfl⟩

theorem assignTrimmed_valid (set : Product → String → Product) (v : JSVal)
    (h : v.isUndefined = false → Field.blank v = false) :
    (v = .undefined ∧ ∀ p, assignTrimmed set v p = .ok p) ∨
      ∃ s, v = .str s ∧ ∀ p, assignTrimmed set v p = .ok (set p (jsTrim s)) := by
  cases v with
  | undefined => left; simp [assignTrimmed, JSVal.isUndefined]
  | str s => right; exact ⟨s, rfl, by simp [assignTrimmed, JSVal.isUndefined, callTrim]⟩
  | _ => simp [JSVal.isUndefined, Field.blank] at h

theorem assignNumber_valid (rt : Builtins) (set : Product → JSNum → Product) (v : JSVal)
    (n : JSNum) (h : v.toNumber rt = some n) :
    (v = .undefined ∧ ∀ p, assignNumber rt set v p = .ok p) ∨
      (v ≠ .undefined ∧ ∀ p, assignNumber rt set v p = .ok (set p n)) := by
  cases v with
  | undefined => left; simp [assignNumber, JSVal.isUndefined]
  | _ => right; simp_all [assignNumber, JSVal.isUndefined]

theorem patch_field_valid (rt : Builtins) (body : Payload)
    (hval : validateProductPayload rt body true = some []) (f : Field) :
    (body f.key).isUndefined = false → f.violates rt body = false := by
  intro h
  exact ((validate_nil_iff rt body true).mp hval).2.2 f
    (by simp [Field.checked, Field.present, h])

/-- Claim C7: a PATCH on an id of the store with a payload that passes validation
answers 200 with the updated record, which replaces the first record with that
id in place; the records before and after it, the order and the length are
unchanged; the id is unchanged; a string field is the trimmed input when
supplied and the old value when not; price and stock are `Number(input)` when
supplied and the old value when not. -/
theorem patchProduct_touches_only_supplied_fields (rt : Builtins) (products : List Product)
    (id : String) (body : Payload) (hid : ∃ p ∈ products, p.id = id)
    (hval : validateProductPayload rt body true = some []) :
    ∃ before target after updated,
      products = before ++ target :: after ∧ (∀ p ∈ before, p.id ≠ id) ∧ target.id = id ∧
      patchProduct rt products id body = (before ++ updated :: after, ⟨200, .record updated⟩) ∧
      updated.id = target.id ∧
      (body "title" = .undefined ∧ updated.title = target.title ∨
        ∃ s, body "title" = .str s ∧ updated.title = jsTrim s) ∧
      (body "category" = .undefined ∧ updated.category = target.category ∨
        ∃ s, body "category" = .str s ∧ updated.category = jsTrim s) ∧
      (body "description" = .undefined ∧ updated.description = target.description ∨
        ∃ s, body "description" = .str s ∧ updated.description = jsTrim s) ∧
      some updated.price =
        (if body "price" = .undefined then some target.price
          else (body "price").toNumber rt) ∧
      some updated.stock =
        (if body "stock" = .undefined then some target.stock
          else (body "stock").toNumber rt) := by
  obtain ⟨before, target, after, rfl, hb, ht, hfind, hwrite⟩ := find_of_mem products id hid
  obtain ⟨np, ns, hp, hs⟩ := converts_of_valid rt body true hval
  have h1 := assignTrimmed_valid (fun p s => { p with title := s }) (body "title")
    (patch_field_valid rt body hval .title)
  have h2 := assignTrimmed_valid (fun p s => { p with category := s }) (body "category")
    (patch_field_valid rt body hval .category)
  have h3 := assignTrimmed_valid (fun p s => { p with description := s }) (body "description")
    (patch_field_valid rt body hval .description)
  have h4 := assignNumber_valid rt (fun p n => { p with price := n }) (body "price") np hp
  have h5 := assignNumber_valid rt (fun p n => { p with stock := n }) (body "stock") ns hs
  have hpatch : ∀ updated, assignFields rt body target = .ok updated →
      patchProduct rt (before ++ target :: after) id body =
        (before ++ updated :: after, ⟨200, .record updated⟩) := by
    intro updated hok
    simp only [patchProduct, hfind, hval, hok, hwrite]
    simp
  rcases h1 with ⟨e1, a1⟩ | ⟨s1, e1, a1⟩ <;> rcases h2 with ⟨e2, a2⟩ | ⟨s2, e2, a2⟩ <;>
    rcases h3 with ⟨e3, a3⟩ | ⟨s3, e3, a3⟩ <;> rcases h4 with ⟨e4, a4⟩ | ⟨e4, a4⟩ <;>
    rcases h5 with ⟨e5, a5⟩ | ⟨e5, a5⟩ <;>
    exact ⟨before, target, after, _, rfl, hb, ht,
      hpatch _ (by
        simp only [assignFields, a1, a2, a3, a4, a5, bind, Except.bind, pure, Except.pure]
        rfl),
      by simp [e1, e2, e3, e4, e5, hp, hs]⟩

/-- Claim C7 on the example of the specification: `update("a1", price 200, stock 10)`
changes price and stock only. -/
theorem patchProduct_touches_only_supplied_fields_witness :
    (∃ before target after updated,
      [mouse, keyboard] = before ++ target :: after ∧ (∀ p ∈ before, p.id ≠ "a1") ∧
      target.id = "a1" ∧
      patchProduct Builtins.decimal [mouse, keyboard] "a1"
          (Payload.ofFields [("price", .num (.fin 200)), ("stock", .num (.fin 10))]) =
        (before ++ updated :: after, ⟨200, .record updated⟩) ∧
      updated.id = target.id ∧ updated.title = target.title ∧
      updated.price = .fin 200 ∧ updated.stock = .fin 10) ∧
    patchProduct Builtins.decimal [mouse, keyboard] "a1"
        (Payload.ofFields [("price", .num (.fin 200)), ("stock", .num (.fin 10))]) =
      ([⟨"a1", "Mouse", "Peripherals", "x", .fin 200, .fin 10⟩, keyboard],
        ⟨200, .record ⟨"a1", "Mouse", "Peripherals", "x", .fin 200, .fin 10⟩⟩) := by
  constructor
  · obtain ⟨before, target, after, updated, h1, h2, h3, h4, h5, h6, _, _, h9, h10⟩ :=
      patchProduct_touches_only_supplied_fields Builtins.decimal [mouse, keyboard] "a1"
        (Payload.ofFields [("price", .num (.fin 200)), ("stock", .num (.fin 10))])
        ⟨mouse, by simp, rfl⟩ (by decide)
    have ht : Payload.ofFields [("price", .num (.fin 200)), ("stock", .num (.fin 10))] "title" =
        .undefined := by decide
    have hp : Payload.ofFields [("price", .num (.fin 200)), ("stock", .num (.fin 10))] "price" =
        .num (.fin 200) := by decide
    have hs : Payload.ofFields [("price", .num (.fin 200)), ("stock", .num (.fin 10))] "stock" =
        .num (.fin 10) := by decide
    refine ⟨before, target, after, updated, h1, h2, h3, h4, h5, ?_, ?_, ?_⟩
    · rcases h6 with ⟨_, h⟩ | ⟨s, hstr, _⟩
      · exact h
      · rw [ht] at hstr
        cases hstr
    · rw [hp] at h9
      exact Option.some.inj h9
    · rw [hs] at h10
      exact Option.some.inj h10
  · decide

theorem assignTrimmed_id (set : Product → String → Product)
    (hset : ∀ p s, (set p s).id = p.id) (v : JSVal) (p r : Product)
    (h : assignTrimmed set v p = .ok r ∨ assignTrimmed set v p = .error r) : r.id = p.id := by
  unfold assignTrimmed at h
  split at h
  · rcases h with h | h
    · cases h; rfl
    · cases h
  · split at h
    · rcases h with h | h
      · cases h; exact hset _ _
      · cases h
    · rcases h with h | h
      · cases h
      · cases h; rfl

theorem assignNumber_id (rt : Builtins) (set : Product → JSNum → Product)
    (hset : ∀ p n, (set p n).id = p.id) (v : JSVal) (p r : Product)
    (h : assignNumber rt set v p = .ok r ∨ assignNumber rt set v p = .error r) :
    r.id = p.id := by
  unfold assignNumber at h
  split at h
  · rcases h with h | h
    · cases h; rfl
    · cases h
  · split at h
    · rcases h with h | h
      · cases h; exact hset _ _
      · cases h
    · rcases h with h | h
      · cases h
      · cases h; rfl

theorem bind_keeps_id (f g : Product → Except Product Product)
    (hf : ∀ p r, (f p = .ok r ∨ f p = .error r) → r.id = p.id)
    (hg : ∀ p r, (g p = .ok r ∨ g p = .error r) → r.id = p.id) (p r : Product)
    (h : (f p >>= g) = .ok r ∨ (f p >>= g) = .error r) : r.id = p.id := by
  cases hfp : f p with
  | error e =>
    simp only [hfp, bind, Except.bind] at h
    rcases h with h | h
    · cases h
    · have hr : e = r := by injection h
      rw [← hr]
      exact hf p e (Or.inr hfp)
  | ok q =>
    simp only [hfp, bind, Except.bind] at h
    exact (hg q r h).trans (hf p q (Or.inl hfp))

theorem assignFields_id (rt : Builtins) (body : Payload) (p r : Product)
    (h : assignFields rt body p = .ok r ∨ assignFields rt body p = .error r) : r.id = p.id := by
  refine bind_keeps_id
    (assignTrimmed (fun p s => { p with title := s }) (body "title")) _
    (assignTrimmed_id (fun p s => { p with title := s }) (fun _ _ => rfl) (body "title")) ?_ p r h
  refine bind_keeps_id
    (assignTrimmed (fun p s => { p with category := s }) (body "category")) _
    (assignTrimmed_id (fun p s => { p with category := s }) (fun _ _ => rfl) (body "category")) ?_
  refine bind_keeps_id
    (assignTrimmed (fun p s => { p with description := s }) (body "description")) _
    (assignTrimmed_id (fun p s => { p with description := s }) (fun _ _ => rfl) (body "description")) ?_
  refine bind_keeps_id
    (assignNumber rt (fun p n => { p with price := n }) (body "price")) _
    (assignNumber_id rt (fun p n => { p with price := n }) (fun _ _ => rfl) (body "price")) ?_
  refine bind_keeps_id
    (assignNumber rt (fun p n => { p with stock := n }) (body "stock")) pure
    (assignNumber_id rt (fun p n => { p with stock := n }) (fun _ _ => rfl) (body "stock")) ?_
  intro q s hq
  rcases hq with hq | hq
  · cases hq; rfl
  · cases hq

theorem ids_writeBack (products : List Product) (id : String) (target r : Product)
    (hfind : findProductOr404 products id = some target) (hr : r.id = target.id) :
    ids (writeBack (fun p => p.id == id) r products) = ids products := by
  induction products with
  | nil => rfl
  | cons x xs ih =>
    by_cases hx : (x.id == id) = true
    · have : target = x := by
        simp only [findProductOr404, List.find?, hx] at hfind
        exact (Option.some.inj hfind).symm
      subst this
      simp [writeBack, hx, ids, hr]
    · have hx2 : (x.id == id) = false := by simpa using hx
      have hf : findProductOr404 xs id = some target := by
        simpa only [findProductOr404, List.find?, hx2] using hfind
      have := ih hf
      simp only [ids] at this ⊢
      simp [writeBack, hx2, this]

theorem patchProduct_ids (rt : Builtins) (products : List Product) (id : String)
    (body : Payload) : ids (patchProduct rt products id body).1 = ids products := by
  unfold patchProduct
  cases hfind : findProductOr404 products id with
  | none => rfl
  | some target =>
    simp only
    cases hv : validateProductPayload rt body true with
    | none => rfl
    | some errors =>
      simp only
      split
      · rfl
      · cases hassign : assignFields rt body target with
        | ok r =>
          exact ids_writeBack _ _ _ _ hfind (assignFields_id rt body target r (Or.inl hassign))
        | error r =>
          exact ids_writeBack _ _ _ _ hfind (assignFields_id rt body target r (Or.inr hassign))

theorem deleteProduct_ids_sublist (products : List Product) (id : String) :
    (ids (deleteProduct products id).1).Sublist (ids products) := by
  unfold deleteProduct
  simp only
  split
  · exact List.Sublist.refl _
  · exact List.Sublist.map _ (List.filter_sublist _)

theorem postProduct_cases (rt : Builtins) (products : List Product) (newId : String)
    (body : Payload) :
    (postProduct rt products newId body).1 = products ∧
        (∀ created, (postProduct rt products newId body).2 ≠ ⟨201, .record created⟩) ∨
      ∃ created, created.id = newId ∧
        postProduct rt products newId body = (products ++ [created], ⟨201, .record created⟩) := by
  cases hv : validateProductPayload rt body false with
  | none =>
    left
    rw [postProduct_of_throw rt products newId body hv]
    exact ⟨rfl, fun created h => by cases h⟩
  | some errors =>
    by_cases herr : errors = []
    · subst herr
      obtain ⟨t, c, d, np, ns, _, _, _, _, _, hpost⟩ :=
        postProduct_of_valid rt products newId body hv
      exact Or.inr ⟨_, rfl, hpost⟩
    · left
      rw [postProduct_of_invalid rt products newId body errors hv herr]
      exact ⟨rfl, fun created h => by cases h⟩

/-- Claim C8: if the ids of the product store are pairwise distinct and, for a
create request, the generated id is not an id of the store, then after the
request (create, update or delete, whatever its outcome) the ids are still
pairwise distinct; and the record a create request answers with carries the
generated id, which no record already in the store has. -/
theorem ids_stay_pairwise_distinct (rt : Builtins) (products : List Product) (req : Request)
    (hnodup : (ids products).Nodup)
    (hfresh : ∀ newId body, req = .create newId body → newId ∉ ids products) :
    (ids (handle rt products req).1).Nodup ∧
    ∀ newId body created, req = .create newId body →
      (handle rt products req).2 = ⟨201, .record created⟩ →
      created.id = newId ∧ ∀ p ∈ products, p.id ≠ created.id := by
  cases req with
  | create newId body =>
    have hnew : newId ∉ ids products := hfresh newId body rfl
    simp only [handle]
    rcases postProduct_cases rt products newId body with ⟨hstore, hres⟩ | ⟨created, hc, hpost⟩
    · refine ⟨by rw [hstore]; exact hnodup, ?_⟩
      intro n b created _ h
      exact absurd h (hres created)
    · rw [hpost]
      refine ⟨?_, ?_⟩
      · rw [ids_append]
        refine List.Nodup.append hnodup (by simp [ids]) ?_
        simp only [ids, List.map_cons, List.map_nil, List.disjoint_singleton, hc]
        exact hnew
      · intro n b created2 hreq h
        have h1 : created2 = created := by
          simp only [Response.mk.injEq, Body.record.injEq, true_and] at h
          exact h.symm
        have h2 : n = newId := by
          simp only [Request.create.injEq] at hreq
          exact hreq.1.symm
        subst h1
        refine ⟨by rw [hc, h2], ?_⟩
        intro p hp hpid
        apply hnew
        rw [← hc, ← hpid]
        exact List.mem_map_of_mem _ hp
  | update id body =>
    simp only [handle]
    refine ⟨by rw [patchProduct_ids]; exact hnodup, ?_⟩
    intro n b created hreq
    cases hreq
  | delete id =>
    simp only [handle]
    refine ⟨hnodup.sublist (deleteProduct_ids_sublist products id), ?_⟩
    intro n b created hreq
    cases hreq

/-- Claim C8 on a store of two records, for one request of each kind. -/
theorem ids_stay_pairwise_distinct_witness :
    (ids (handle Builtins.decimal [mouse, keyboard]
      (.create "c3" (Payload.ofFields [("title", .str "Pad"), ("category", .str "Peripherals"),
        ("description", .str "z"), ("price", .num (.fin 7)), ("stock", .num (.fin 1))]))).1).Nodup ∧
    (ids (handle Builtins.decimal [mouse, keyboard]
      (.update "a1" (Payload.ofFields [("price", .num (.fin 200))]))).1).Nodup ∧
    (ids (handle Builtins.decimal [mouse, keyboard] (.delete "b2")).1).Nodup :=
  ⟨(ids_stay_pairwise_distinct Builtins.decimal [mouse, keyboard] _ (by decide)
      (fun newId body h => by cases h; decide)).1,
   (ids_stay_pairwise_distinct Builtins.decimal [mouse, keyboard] _ (by decide)
      (fun newId body h => by cases h)).1,
   (ids_stay_pairwise_distinct Builtins.decimal [mouse, keyboard] _ (by decide)
      (fun newId body h => by cases h)).1⟩

end Practice4

/-! ## Both stores -/

namespace Practice5

/-- Claim C5: in the product store and in the user store, deleting an id that no
record carries answers 404 and leaves the store as it was. -/
theorem delete_missing_id_unchanged (products : List Practice4.Product) (users : List User)
    (pid uid : String) (hp : ∀ p ∈ products, p.id ≠ pid) (hu : ∀ u ∈ users, u.id ≠ uid) :
    Practice4.deleteProduct products pid = (products, ⟨404, .error "Product not found"⟩) ∧
    deleteUser users uid = (users, ⟨404, .error "User not found"⟩) := by
  constructor
  · simp [Practice4.deleteProduct, Practice4.not_any_of_forall_ne products pid hp]
  · have : users.any (fun u => u.id == uid) = false := by
      simp only [List.any_eq_false, beq_iff_eq]
      exact hu
    simp [deleteUser, this]

/-- Claim C5 on two small stores. -/
theorem delete_missing_id_witness :
    Practice4.deleteProduct [Practice4.mouse, Practice4.keyboard] "zz" =
      ([Practice4.mouse, Practice4.keyboard], ⟨404, .error "Product not found"⟩) ∧
    deleteUser [⟨"u1", "Петр", .fin 16⟩, ⟨"u2", "Иван", .fin 18⟩] "zz" =
      ([⟨"u1", "Петр", .fin 16⟩, ⟨"u2", "Иван", .fin 18⟩], ⟨404, .error "User not found"⟩) :=
  delete_missing_id_unchanged [Practice4.mouse, Practice4.keyboard]
    [⟨"u1", "Петр", .fin 16⟩, ⟨"u2", "Иван", .fin 18⟩] "zz" "zz" (by decide) (by decide)

/-! ## The user handlers -/

/-- Claim C2 against the code: when the id is in the store, the payload sets a
name that is valid and an age that is invalid, the PATCH handler answers 400
"Invalid age" and the targeted record already carries the new name. -/
theorem patchUser_applies_name_before_rejecting_age (rt : Builtins) (users : List User)
    (id : String) (body : Payload) (nameString : String) (parsedAge : JSNum)
    (hid : ∃ u ∈ users, u.id = id)
    (hname : body "name" ≠ .undefined) (hstr : (body "name").toStr rt = some nameString)
    (hvalid : jsTrim nameString ≠ "")
    (hage : body "age" ≠ .undefined) (hnum : (body "age").toNumber rt = some parsedAge)
    (hinvalid : invalidAge parsedAge = true) :
    ∃ before target after,
      users = before ++ target :: after ∧ (∀ u ∈ before, u.id ≠ id) ∧ target.id = id ∧
      patchUser rt users id body =
        (before ++ { target with name := jsTrim nameString } :: after,
          ⟨400, .error "Invalid age"⟩) := by
  have h2 : ∃ u ∈ users, (fun u : User => u.id == id) u = true := by
    obtain ⟨u, hu, he⟩ := hid
    exact ⟨u, hu, by simp [he]⟩
  obtain ⟨before, target, after, rfl, hb, ht⟩ := exists_first_match _ users h2
  have hfind := find?_first_match _ before after target hb ht
  have hn : (body "name").isUndefined = false := by
    cases h : body "name" <;> simp_all [JSVal.isUndefined]
  have ha : (body "age").isUndefined = false := by
    cases h : body "age" <;> simp_all [JSVal.isUndefined]
  refine ⟨before, target, after, rfl, fun u hu => by simpa using hb u hu, by simpa using ht, ?_⟩
  simp only [patchUser, findUserOr404, hfind, hn, ha, patchName, patchAge, hstr, hnum,
    beq_empty_eq_false _ hvalid, hinvalid,
    writeBack_first_match _ _ before after target hb ht]
  simp

/-- The failing input of claim C2: on the store of one user `Петр`, the payloads
with name `Bob` and age -1 or 200 are answered with 400 and rename the user. -/
theorem patchUser_applies_name_before_rejecting_age_witness :
    (∃ before target after,
      [(⟨"u1", "Петр", .fin 16⟩ : User)] = before ++ target :: after ∧
      (∀ u ∈ before, u.id ≠ "u1") ∧ target.id = "u1" ∧
      patchUser Builtins.decimal [⟨"u1", "Петр", .fin 16⟩] "u1"
          (Payload.ofFields [("name", .str "Bob"), ("age", .num (.fin (-1)))]) =
        (before ++ { target with name := "Bob" } :: after, ⟨400, .error "Invalid age"⟩)) ∧
    patchUser Builtins.decimal [⟨"u1", "Петр", .fin 16⟩] "u1"
        (Payload.ofFields [("name", .str "Bob"), ("age", .num (.fin (-1)))]) =
      ([⟨"u1", "Bob", .fin 16⟩], ⟨400, .error "Invalid age"⟩) ∧
    patchUser Builtins.decimal [⟨"u1", "Петр", .fin 16⟩] "u1"
        (Payload.ofFields [("name", .str "Bob"), ("age", .num (.fin 200))]) =
      ([⟨"u1", "Bob", .fin 16⟩], ⟨400, .error "Invalid age"⟩) :=
  ⟨patchUser_applies_name_before_rejecting_age Builtins.decimal [⟨"u1", "Петр", .fin 16⟩] "u1"
      (Payload.ofFields [("name", .str "Bob"), ("age", .num (.fin (-1)))]) "Bob" (.fin (-1))
      ⟨⟨"u1", "Петр", .fin 16⟩, by simp, rfl⟩ (by decide) (by decide) (by decide) (by decide)
      (by decide) (by decide),
    by decide, by decide⟩

theorem invalidAge_eq_false_iff (n : JSNum) :
    invalidAge n = false ↔ ∃ q : ℚ, n = .fin q ∧ 0 ≤ q ∧ q ≤ 150 := by
  cases n <;> simp [invalidAge, JSNum.isFinite, JSNum.lt, JSNum.gt]

theorem isUndefined_eq_false_iff (v : JSVal) : v.isUndefined = false ↔ v ≠ .undefined := by
  cases v <;> simp [JSVal.isUndefined]

/-- The direction of claim C9 that the code keeps: on every payload the
specification accepts (a name that is a string, non-empty after trimming, and a
present age whose `Number(age)` is finite and from 0 to 150) the handler appends
the user with the trimmed name and `Number(age)` and answers 201. -/
theorem postUser_of_accepted (rt : Builtins) (users : List User) (newId : String)
    (body : Payload) (h : accepted rt body) :
    ∃ s q, body "name" = .str s ∧ (body "age").toNumber rt = some (.fin q) ∧
      postUser rt users newId body =
        (users ++ [⟨newId, jsTrim s, .fin q⟩], ⟨201, .record ⟨newId, jsTrim s, .fin q⟩⟩) := by
  obtain ⟨⟨s, hs, hne⟩, ha, q, hq, h0, h150⟩ := h
  refine ⟨s, q, hs, hq, ?_⟩
  have hs0 : s ≠ "" := by
    intro he
    apply hne
    rw [he]
    exact jsTrim_empty
  have h1 : (body "age").isUndefined = false := (isUndefined_eq_false_iff _).mpr ha
  have h2 : invalidAge (.fin q) = false := (invalidAge_eq_false_iff _).mpr ⟨q, rfl, h0, h150⟩
  simp [postUser, hs, JSVal.truthy, JSVal.toStr, hs0, h1, hq, h2, beq_empty_eq_false _ hne]

/-- Claim C9 against the code: a name that is not a string is not rejected.  For
every store and every generated id, the payload with the boolean name `true`
and age 20 is answered with 201 and stored under the name "true"; and the
payload whose name is an object that cannot be converted to a primitive is
answered with 500, not 400. -/
theorem postUser_accepts_non_string_name (rt : Builtins) (users : List User) (newId : String) :
    (Payload.ofFields [("name", .bool true), ("age", .num (.fin 20))] "name").typeof = "boolean" ∧
    postUser rt users newId (Payload.ofFields [("name", .bool true), ("age", .num (.fin 20))]) =
      (users ++ [⟨newId, "true", .fin 20⟩], ⟨201, .record ⟨newId, "true", .fin 20⟩⟩) ∧
    postUser rt users newId (Payload.ofFields [("name", .object none), ("age", .num (.fin 20))]) =
      (users, ⟨500, .error "Internal server error"⟩) := by
  refine ⟨by decide, ?_, ?_⟩
  · rfl
  · rfl

end Practice5

/-! ## The product form against the validator -/

namespace ProductModal

open Practice4

theorem formBody_reads (title category description price stock : String) :
    formBody title category description price stock "title" = .str title ∧
    formBody title category description price stock "category" = .str category ∧
    formBody title category description price stock "description" = .str description ∧
    formBody title category description price stock "price" = .str price ∧
    formBody title category description price stock "stock" = .str stock := by
  simp [formBody, Payload.ofFields, List.lookup]

theorem validate_create_nil_iff (rt : Builtins) (body : Payload) :
    validateProductPayload rt body false = some [] ↔
      Field.blank (body "title") = false ∧ Field.blank (body "category") = false ∧
      Field.blank (body "description") = false ∧
      (∃ np, (body "price").toNumber rt = some np ∧ invalidPrice np = false) ∧
      ∃ ns, (body "stock").toNumber rt = some ns ∧ invalidStock ns = false := by
  constructor
  · intro hval
    obtain ⟨np, ns, hp, hs, h4, h5⟩ := create_numbers_valid rt body hval
    exact ⟨create_string_field rt body hval .title, create_string_field rt body hval .category,
      create_string_field rt body hval .description, ⟨np, hp, by rw [invalidPrice_eq]; exact h4⟩,
      ⟨ns, hs, by rw [invalidStock_eq]; exact h5⟩⟩
  · rintro ⟨h1, h2, h3, ⟨np, hp, h4⟩, ⟨ns, hs, h5⟩⟩
    rw [validate_nil_iff]
    refine ⟨by simp [conversionThrows, hp, hs], by simp, fun f _ => ?_⟩
    rw [invalidPrice_eq] at h4
    rw [invalidStock_eq] at h5
    cases f <;> simp only [Field.violates, hp, hs] <;> assumption

theorem validate_patch_nil_of_create (rt : Builtins) (body : Payload)
    (h : validateProductPayload rt body false = some []) :
    validateProductPayload rt body true = some [] := by
  have hc := (validate_nil_iff rt body false).mp h
  rw [validate_nil_iff]
  refine ⟨hc.1, ?_, fun f _ => hc.2.2 f (by simp [Field.checked])⟩
  rintro ⟨_, hall⟩
  have h1 := hc.2.2 .title (by simp [Field.checked])
  have h2 := hall .title
  obtain ⟨s, hs, _⟩ := blank_false _ h1
  simp [Field.present, Field.key, hs, JSVal.isUndefined] at h2

theorem handleSubmit_cases (rt : Builtins) (initialId : JSVal)
    (title category description price stock : String) :
    (((jsTrim title == "" || jsTrim category == "" || jsTrim description == "") = false ∧
      invalidPrice (rt.stringToNumber price) = false ∧
      invalidStock (rt.stringToNumber stock) = false) ∧
      handleSubmit rt initialId title category description price stock =
        .onSubmit (Payload.ofFields [("id", initialId), ("title", .str (jsTrim title)),
          ("category", .str (jsTrim category)), ("description", .str (jsTrim description)),
          ("price", .num (rt.stringToNumber price)), ("stock", .num (rt.stringToNumber stock))])) ∨
    (¬ ((jsTrim title == "" || jsTrim category == "" || jsTrim description == "") = false ∧
      invalidPrice (rt.stringToNumber price) = false ∧
      invalidStock (rt.stringToNumber stock) = false) ∧
      ∃ msg, handleSubmit rt initialId title category description price stock = .alert msg) := by
  unfold handleSubmit invalidPrice invalidStock
  simp only
  split
  · rename_i h
    exact Or.inr ⟨by simp [h], _, rfl⟩
  · split
    · rename_i h
      exact Or.inr ⟨by simp [h], _, rfl⟩
    · split
      · rename_i h
        exact Or.inr ⟨by simp [h], _, rfl⟩
      · rename_i h1 h2 h3
        exact Or.inl ⟨⟨by simpa using h1, by simpa using h2, by simpa using h3⟩, rfl⟩

/-- Claim C10: for all strings in the five form fields, `handleSubmit` calls
`onSubmit` exactly when `validateProductPayload` in create mode returns no error
on the body made of those five strings; the payload it passes to `onSubmit` is
the object with `initialProduct?.id`, the three trimmed strings and the numbers
`Number(price)` and `Number(stock)`; and that payload passes
`validateProductPayload` in create mode and in patch mode. -/
theorem handleSubmit_mirrors_validateProductPayload (rt : Builtins) (initialId : JSVal)
    (title category description price stock : String) :
    ((∃ payload, handleSubmit rt initialId title category description price stock =
        .onSubmit payload) ↔
      validateProductPayload rt (formBody title category description price stock) false =
        some []) ∧
    (∀ payload, handleSubmit rt initialId title category description price stock =
        .onSubmit payload →
      (∃ p s, (JSVal.str price).toNumber rt = some p ∧ (JSVal.str stock).toNumber rt = some s ∧
        payload = Payload.ofFields [("id", initialId), ("title", .str (jsTrim title)),
          ("category", .str (jsTrim category)), ("description", .str (jsTrim description)),
          ("price", .num p), ("stock", .num s)]) ∧
      validateProductPayload rt payload false = some [] ∧
      validateProductPayload rt payload true = some []) := by
  obtain ⟨f1, f2, f3, f4, f5⟩ := formBody_reads title category description price stock
  have hform : validateProductPayload rt (formBody title category description price stock) false
      = some [] ↔
      ((jsTrim title == "" || jsTrim category == "" || jsTrim description == "") = false ∧
      invalidPrice (rt.stringToNumber price) = false ∧
      invalidStock (rt.stringToNumber stock) = false) := by
    rw [validate_create_nil_iff, f1, f2, f3, f4, f5]
    simp [Field.blank, JSVal.toNumber, and_assoc]
  rcases handleSubmit_cases rt initialId title category description price stock with
    ⟨hok, hsub⟩ | ⟨hno, msg, hal⟩
  · refine ⟨⟨fun _ => hform.mpr hok, fun _ => ⟨_, hsub⟩⟩, ?_⟩
    intro payload hp
    rw [hsub] at hp
    cases hp
    have hcreate : validateProductPayload rt
        (Payload.ofFields [("id", initialId), ("title", .str (jsTrim title)),
          ("category", .str (jsTrim category)), ("description", .str (jsTrim description)),
          ("price", .num (rt.stringToNumber price)), ("stock", .num (rt.stringToNumber stock))])
        false = some [] := by
      rw [validate_create_nil_iff]
      have h1 := hok.1
      simp only [Bool.or_eq_false_iff, beq_eq_false_iff_ne, ne_eq] at h1
      simp [Payload.ofFields, List.lookup, Field.blank, JSVal.toNumber, jsTrim_idempotent, hok.2.1,
        hok.2.2, h1.1.1, h1.1.2, h1.2]
    exact ⟨⟨rt.stringToNumber price, rt.stringToNumber stock, rfl, rfl, rfl⟩, hcreate,
      validate_patch_nil_of_create rt _ hcreate⟩
  · refine ⟨⟨?_, fun h => absurd (hform.mp h) hno⟩, ?_⟩
    · rintro ⟨payload, hp⟩
      rw [hal] at hp
      cases hp
    · intro payload hp
      rw [hal] at hp
      cases hp

/-- Claim C10 on two forms: one the validator accepts, with the payload it
submits read field by field, and one with a blank category that `handleSubmit`
does not submit. -/
theorem handleSubmit_mirrors_validateProductPayload_witness :
    validateProductPayload Builtins.decimal (formBody " Pad " "Peripherals" "z" "7" " 12 ")
      false = some [] ∧
    (∃ payload, handleSubmit Builtins.decimal .undefined " Pad " "Peripherals" "z" "7" " 12 " =
        .onSubmit payload ∧
      payload "title" = .str "Pad" ∧ payload "price" = .num (.fin 7) ∧
      payload "stock" = .num (.fin 12) ∧ payload "id" = .undefined) ∧
    ¬ ∃ payload, handleSubmit Builtins.decimal .undefined "Pad" "   " "z" "7" "12" =
      .onSubmit payload := by
  refine ⟨?_, ?_, ?_⟩
  · exact (handleSubmit_mirrors_validateProductPayload Builtins.decimal .undefined
      " Pad " "Peripherals" "z" "7" " 12 ").1.mp ⟨_, rfl⟩
  · obtain ⟨payload, hp⟩ := (handleSubmit_mirrors_validateProductPayload Builtins.decimal
      .undefined " Pad " "Peripherals" "z" "7" " 12 ").1.mpr (by decide)
    obtain ⟨⟨p, s, h1, h2, heq⟩, _, _⟩ := (handleSubmit_mirrors_validateProductPayload
      Builtins.decimal .undefined " Pad " "Peripherals" "z" "7" " 12 ").2 payload hp
    have hp7 : p = .fin 7 := by
      have : (JSVal.str "7").toNumber Builtins.decimal = some (.fin 7) := by decide
      rw [this] at h1
      exact (Option.some.inj h1).symm
    have hs12 : s = .fin 12 := by
      have : (JSVal.str " 12 ").toNumber Builtins.decimal = some (.fin 12) := by decide
      rw [this] at h2
      exact (Option.some.inj h2).symm
    refine ⟨payload, hp, ?_⟩
    rw [heq, hp7, hs12]
    decide
  · intro h
    have := (handleSubmit_mirrors_validateProductPayload Builtins.decimal .undefined
      "Pad" "   " "z" "7" "12").1.mp h
    revert this
    decide

end ProductModal

/-! ## Stored records stay valid and normalised -/

namespace Practice4

theorem mem_writeBack {α : Type} (sel : α → Bool) (r x : α) (l : List α)
    (h : x ∈ writeBack sel r l) : x = r ∨ x ∈ l := by
  induction l with
  | nil => simp [writeBack] at h
  | cons y ys ih =>
    unfold writeBack at h
    split at h
    · rcases List.mem_cons.mp h with h | h
      · exact Or.inl h
      · exact Or.inr (List.mem_cons_of_mem _ h)
    · rcases List.mem_cons.mp h with h | h
      · exact Or.inr (by simp [h])
      · rcases ih h with h | h
        · exact Or.inl h
        · exact Or.inr (List.mem_cons_of_mem _ h)

theorem trimmedNonEmpty_jsTrim (s : String) (h : jsTrim s ≠ "") :
    trimmedNonEmpty (jsTrim s) = true := by
  simp [trimmedNonEmpty, h, jsTrim_idempotent]

theorem finiteNonNegative_of_valid (n : JSNum) (h : Field.negativeOrNotFinite n = false) :
    finiteNonNegative n = true := by
  cases n <;> simp_all [Field.negativeOrNotFinite, finiteNonNegative]

theorem integerNonNegative_of_valid (n : JSNum) (h : Field.negativeOrNotInteger n = false) :
    integerNonNegative n = true := by
  cases n <;> simp_all [Field.negativeOrNotInteger, integerNonNegative]

theorem normalised_iff (p : Product) :
    p.normalised = true ↔
      trimmedNonEmpty p.title = true ∧ trimmedNonEmpty p.category = true ∧
      trimmedNonEmpty p.description = true ∧ finiteNonNegative p.price = true ∧
      integerNonNegative p.stock = true := by
  simp [Product.normalised, and_assoc]

theorem toPayload_reads (p : Product) :
    p.toPayload "title" = .str p.title ∧ p.toPayload "category" = .str p.category ∧
    p.toPayload "description" = .str p.description ∧ p.toPayload "price" = .num p.price ∧
    p.toPayload "stock" = .num p.stock := by
  simp [Product.toPayload, Payload.ofFields, List.lookup]

theorem blank_of_trimmedNonEmpty (s : String) (h : trimmedNonEmpty s = true) :
    Field.blank (.str s) = false := by
  simp only [trimmedNonEmpty, Bool.and_eq_true, decide_eq_true_eq] at h
  simp only [Field.blank, decide_eq_false_iff_not]
  rw [h.2]
  exact h.1

theorem invalidPrice_of_finiteNonNegative (n : JSNum) (h : finiteNonNegative n = true) :
    invalidPrice n = false := by
  cases n <;> simp_all [finiteNonNegative, invalidPrice, JSNum.isFinite, JSNum.lt]

theorem invalidStock_of_integerNonNegative (n : JSNum) (h : integerNonNegative n = true) :
    invalidStock n = false := by
  cases n <;> simp_all [integerNonNegative, invalidStock, JSNum.isInteger, JSNum.lt, Rat.isInt]

theorem normalised_passes_validator (rt : Builtins) (p : Product) (h : p.normalised = true) :
    validateProductPayload rt p.toPayload false = some [] := by
  obtain ⟨h1, h2, h3, h4, h5⟩ := (normalised_iff p).mp h
  obtain ⟨r1, r2, r3, r4, r5⟩ := toPayload_reads p
  rw [ProductModal.validate_create_nil_iff, r1, r2, r3, r4, r5]
  exact ⟨blank_of_trimmedNonEmpty _ h1, blank_of_trimmedNonEmpty _ h2,
    blank_of_trimmedNonEmpty _ h3, ⟨p.price, rfl, invalidPrice_of_finiteNonNegative _ h4⟩,
    ⟨p.stock, rfl, invalidStock_of_integerNonNegative _ h5⟩⟩

theorem demoProducts_normalised (nanoid : Nat → String) :
    (demoProducts nanoid).all Product.normalised = true := by
  rfl

theorem assignTrimmed_normal (set : Product → String → Product) (v : JSVal)
    (h : v.isUndefined = false → Field.blank v = false) :
    (v = .undefined ∧ ∀ p, assignTrimmed set v p = .ok p) ∨
      ∃ s, trimmedNonEmpty (jsTrim s) = true ∧
        ∀ p, assignTrimmed set v p = .ok (set p (jsTrim s)) := by
  cases v with
  | undefined => left; simp [assignTrimmed, JSVal.isUndefined]
  | str s =>
    right
    obtain ⟨t, ht, hne⟩ := blank_false _ (h (by simp [JSVal.isUndefined]))
    cases ht
    exact ⟨s, trimmedNonEmpty_jsTrim s hne, by simp [assignTrimmed, JSVal.isUndefined, callTrim]⟩
  | _ => simp [JSVal.isUndefined, Field.blank] at h

theorem assignNumber_normal (rt : Builtins) (set : Product → JSNum → Product) (v : JSVal)
    (good : JSNum → Bool) (bad : JSNum → Bool) (hgood : ∀ n, bad n = false → good n = true)
    (n : JSNum) (hn : v.toNumber rt = some n)
    (h : v.isUndefined = false → bad n = false) :
    (∀ p, assignNumber rt set v p = .ok p) ∨
      ∃ m, good m = true ∧ ∀ p, assignNumber rt set v p = .ok (set p m) := by
  cases hu : v.isUndefined with
  | true => left; intro p; simp [assignNumber, hu]
  | false => right; exact ⟨n, hgood n (h hu), fun p => by simp [assignNumber, hu, hn]⟩

theorem assignFields_normalised (rt : Builtins) (body : Payload) (p : Product)
    (hval : validateProductPayload rt body true = some []) (hp : p.normalised = true) :
    ∃ r, assignFields rt body p = .ok r ∧ r.normalised = true := by
  obtain ⟨np, ns, hnp, hns⟩ := converts_of_valid rt body true hval
  have h1 := assignTrimmed_normal (fun p s => { p with title := s }) (body "title")
    (patch_field_valid rt body hval .title)
  have h2 := assignTrimmed_normal (fun p s => { p with category := s }) (body "category")
    (patch_field_valid rt body hval .category)
  have h3 := assignTrimmed_normal (fun p s => { p with description := s }) (body "description")
    (patch_field_valid rt body hval .description)
  have h4 := assignNumber_normal rt (fun p n => { p with price := n }) (body "price")
    finiteNonNegative Field.negativeOrNotFinite finiteNonNegative_of_valid np hnp
    (fun hu => by
      have := patch_field_valid rt body hval .price hu
      simpa only [Field.violates, hnp] using this)
  have h5 := assignNumber_normal rt (fun p n => { p with stock := n }) (body "stock")
    integerNonNegative Field.negativeOrNotInteger integerNonNegative_of_valid ns hns
    (fun hu => by
      have := patch_field_valid rt body hval .stock hu
      simpa only [Field.violates, hns] using this)
  obtain ⟨q1, q2, q3, q4, q5⟩ := (normalised_iff p).mp hp
  rcases h1 with ⟨_, a1⟩ | ⟨s1, t1, a1⟩ <;> rcases h2 with ⟨_, a2⟩ | ⟨s2, t2, a2⟩ <;>
    rcases h3 with ⟨_, a3⟩ | ⟨s3, t3, a3⟩ <;> rcases h4 with a4 | ⟨m4, t4, a4⟩ <;>
    rcases h5 with a5 | ⟨m5, t5, a5⟩ <;>
    refine ⟨_, by
      simp only [assignFields, a1, a2, a3, a4, a5, bind, Except.bind, pure, Except.pure]
      rfl, ?_⟩ <;>
    simp only [normalised_iff] <;>
    simp_all

theorem postProduct_normalised (rt : Builtins) (products : List Product) (newId : String)
    (body : Payload) (hinv : ∀ p ∈ products, p.normalised = true) :
    ∀ p ∈ (postProduct rt products newId body).1, p.normalised = true := by
  cases hv : validateProductPayload rt body false with
  | none =>
    rw [postProduct_of_throw rt products newId body hv]
    exact hinv
  | some errors =>
    by_cases herr : errors = []
    · subst herr
      obtain ⟨title, category, description, price, stock, ht, hc, hd, hp, hs, hpost⟩ :=
        postProduct_of_valid rt products newId body hv
      obtain ⟨np, ns, hnp, hns, h4, h5⟩ := create_numbers_valid rt body hv
      have e4 : np = price := Option.some.inj (hnp.symm.trans hp)
      have e5 : ns = stock := Option.some.inj (hns.symm.trans hs)
      subst e4 e5
      have b1 := create_string_field rt body hv .title
      have b2 := create_string_field rt body hv .category
      have b3 := create_string_field rt body hv .description
      simp only [Field.violates, ht, hc, hd, Field.blank, decide_eq_false_iff_not] at b1 b2 b3
      rw [hpost]
      intro p hp
      rcases List.mem_append.mp hp with h | h
      · exact hinv p h
      · rw [List.mem_singleton] at h
        rw [h, normalised_iff]
        exact ⟨trimmedNonEmpty_jsTrim _ b1, trimmedNonEmpty_jsTrim _ b2,
          trimmedNonEmpty_jsTrim _ b3, finiteNonNegative_of_valid _ h4,
          integerNonNegative_of_valid _ h5⟩
    · rw [postProduct_of_invalid rt products newId body errors hv herr]
      exact hinv

theorem patchProduct_normalised (rt : Builtins) (products : List Product) (id : String)
    (body : Payload) (hinv : ∀ p ∈ products, p.normalised = true) :
    ∀ p ∈ (patchProduct rt products id body).1, p.normalised = true := by
  unfold patchProduct
  cases hfind : findProductOr404 products id with
  | none => exact hinv
  | some target =>
    have htarget : target.normalised = true := hinv target (List.mem_of_find?_eq_some hfind)
    cases hv : validateProductPayload rt body true with
    | none => exact hinv
    | some errors =>
      by_cases herr : errors = []
      · subst herr
        obtain ⟨r, hr, hnorm⟩ := assignFields_normalised rt body target hv htarget
        simp only [length_ne_zero_eq_false _ rfl, hr]
        intro p hp
        rcases mem_writeBack _ _ _ _ hp with h | h
        · rw [h]; exact hnorm
        · exact hinv p h
      · simp only [length_ne_zero_eq_true _ herr, if_true]
        exact hinv

theorem deleteProduct_normalised (products : List Product) (id : String)
    (hinv : ∀ p ∈ products, p.normalised = true) :
    ∀ p ∈ (deleteProduct products id).1, p.normalised = true := by
  unfold deleteProduct
  simp only
  split
  · exact hinv
  · intro p hp
    exact hinv p (List.mem_of_mem_filter hp)

theorem handle_normalised (rt : Builtins) (products : List Product) (req : Request)
    (hinv : ∀ p ∈ products, p.normalised = true) :
    ∀ p ∈ (handle rt products req).1, p.normalised = true := by
  cases req with
  | create newId body => exact postProduct_normalised rt products newId body hinv
  | update id body => exact patchProduct_normalised rt products id body hinv
  | delete id => exact deleteProduct_normalised products id hinv

theorem handleAll_normalised (rt : Builtins) (reqs : List Request) (products : List Product)
    (hinv : ∀ p ∈ products, p.normalised = true) :
    ∀ p ∈ handleAll rt products reqs, p.normalised = true := by
  induction reqs generalizing products with
  | nil => exact hinv
  | cons req rest ih => exact ih _ (handle_normalised rt products req hinv)

/-- Claim C11: the demo data is valid and normalised (non-empty strings equal to
their own trim, a finite price that is at least zero, an integer stock that is
at least zero); if every record of the store is, then after any create, update
or delete request, whatever the payload, every record still is, and every
record, read back as a payload, passes `validateProductPayload` in create mode;
so on every store reached from the demo data by any sequence of requests both
hold of every record, and the two formulations agree there. -/
theorem stored_products_stay_normalised (rt : Builtins) :
    (∀ nanoid : Nat → String, ∀ p ∈ demoProducts nanoid, p.normalised = true) ∧
    (∀ (products : List Product) (req : Request), (∀ p ∈ products, p.normalised = true) →
      ∀ p ∈ (handle rt products req).1,
        p.normalised = true ∧ validateProductPayload rt p.toPayload false = some []) ∧
    (∀ (nanoid : Nat → String) (reqs : List Request),
      ∀ p ∈ handleAll rt (demoProducts nanoid) reqs,
        p.normalised = true ∧ validateProductPayload rt p.toPayload false = some [] ∧
        (p.normalised = true ↔ validateProductPayload rt p.toPayload false = some [])) := by
  have hdemo : ∀ nanoid : Nat → String, ∀ p ∈ demoProducts nanoid, p.normalised = true :=
    fun nanoid => List.all_eq_true.mp (demoProducts_normalised nanoid)
  refine ⟨hdemo, ?_, ?_⟩
  · intro products req hinv p hp
    have hn := handle_normalised rt products req hinv p hp
    exact ⟨hn, normalised_passes_validator rt p hn⟩
  · intro nanoid reqs p hp
    have hn := handleAll_normalised rt reqs _ (hdemo nanoid) p hp
    have hv := normalised_passes_validator rt p hn
    exact ⟨hn, hv, ⟨fun _ => hv, fun _ => hn⟩⟩

/-- Claim C11 on the demo data after one accepted create, one accepted update, one
rejected update, one update on which `Number` throws and one delete: every
record is valid and normalised and passes the validator. -/
theorem stored_products_stay_normalised_witness :
    (handleAll Builtins.decimal (demoProducts (fun i => Nat.repr i))
      [.create "c3" (Payload.ofFields [("title", .str " Pad "), ("category", .str "Peripherals"),
          ("description", .str "z"), ("price", .num (.fin 7)), ("stock", .str "12")]),
        .update "0" (Payload.ofFields [("title", .str "  Mouse  "), ("price", .str "  ")]),
        .update "1" (Payload.ofFields [("stock", .num (.fin (-1)))]),
        .update "1" (Payload.ofFields [("title", .str "Keys"), ("stock", .object none)]),
        .delete "2"]).all
      (fun p => p.normalised &&
        decide (validateProductPayload Builtins.decimal p.toPayload false = some [])) = true :=
  List.all_eq_true.mpr (fun p hp => by
    obtain ⟨hn, hv, _⟩ :=
      (stored_products_stay_normalised Builtins.decimal).2.2 (fun i => Nat.repr i) _ p hp
    simp [hn, hv])

end Practice4
